import Mathlib

set_option maxHeartbeats 1000000

/-!
Verification development for the Sparta provisioning workflow engine.

The Go sources are shallowly embedded: pure helpers become Lean functions,
stateful code threads explicit state, external collaborators (AWS calls, the
file system, the zip writer, reflection) are oracles passed in as explicit
parameters, and fallible Go code returns an explicit result type.  The two
Sparta goroutine fan-outs (the dual artifact upload and the rollback run) are
sequentialised primary-then-secondary; the claims under study are insensitive
to the interleaving, and the spot where the order is observable (the aggregate
upload error text) is noted at its definition.
-/

namespace Sparta

/-! ## Small string helpers (Go `regexp`/`strings`/`path` fragments) -/

/-- Characters matched by Go's regexp `\w` (ASCII word characters). -/
def isWordChar (c : Char) : Bool :=
  ('a' ≤ c && c ≤ 'z') || ('A' ≤ c && c ≤ 'Z') || ('0' ≤ c && c ≤ '9') || c = '_'

/-- `sanitizedName` (part_000, line 1116): `reSanitize.ReplaceAllString(input, "_")`
with `reSanitize = \W+`, i.e. every maximal run of non-word characters is
replaced by a single underscore. -/
def sanitizedName (input : String) : String :=
  let step : (List Char × Bool) → Char → (List Char × Bool) := fun acc c =>
    if isWordChar c then (c :: acc.1, false)
    else if acc.2 then acc else ('_' :: acc.1, true)
  String.mk ((input.toList.foldl step ([], false)).1.reverse)

/-- Go `strings.Contains(s, string(c))` for a one-character needle. -/
def strContainsChar (s : String) (c : Char) : Bool :=
  s.toList.contains c

/-- Splitting on a one-character separator (Go `strings.Split` with a
one-character separator), accumulating the current field in reverse. -/
def splitOnCharAux (sep : Char) : List Char → List Char → List String
  | [], acc => [String.mk acc.reverse]
  | c :: rest, acc =>
    if c = sep then String.mk acc.reverse :: splitOnCharAux sep rest []
    else splitOnCharAux sep rest (c :: acc)

/-- Go `strings.Split(s, string(sep))`. -/
def splitOnChar (sep : Char) (s : String) : List String :=
  splitOnCharAux sep s.toList []

/-- Whether a path is rooted (starts with `/`). -/
def startsWithSlash (p : String) : Bool :=
  match p.toList with
  | '/' :: _ => true
  | _ => false

/-- Substring test on character lists (Go `strings.Contains`). -/
def listContainsSub (needle : List Char) : List Char → Bool
  | [] => needle.isEmpty
  | c :: rest => List.isPrefixOf needle (c :: rest) || listContainsSub needle rest

/-- Go `strings.Contains hay needle`. -/
def containsSub (hay needle : String) : Bool :=
  listContainsSub needle.toList hay.toList

/-- Element-stack processing of Go `path.Clean`: `""` and `"."` elements are
dropped, `".."` pops a non-`".."` stack entry (and is discarded at the root of
a rooted path), anything else is pushed. The stack is kept reversed. -/
def pathCleanStack (rooted : Bool) : List String → List String → List String
  | stack, [] => stack
  | stack, e :: rest =>
    if e = "" || e = "." then pathCleanStack rooted stack rest
    else if e = ".." then
      match stack with
      | [] =>
        if rooted then pathCleanStack rooted [] rest
        else pathCleanStack rooted [".."] rest
      | top :: lower =>
        if top = ".." then pathCleanStack rooted (".." :: top :: lower) rest
        else pathCleanStack rooted lower rest
    else pathCleanStack rooted (e :: stack) rest

/-- Go `path.Clean`: lexical simplification of a `/`-separated path. -/
def pathClean (p : String) : String :=
  if p = "" then "."
  else
    let rooted := startsWithSlash p
    let elems := (pathCleanStack rooted [] (splitOnChar '/' p)).reverse
    let body := String.intercalate "/" elems
    if body = "" then (if rooted then "/" else ".")
    else if rooted then "/" ++ body else body

/-- Go `path.Join`: skip leading empty elements, join the rest with `/` and
clean the result; the empty list yields `""`. -/
def goPathJoinList : List String → String
  | [] => ""
  | e :: rest =>
    if e = "" then goPathJoinList rest
    else pathClean (String.intercalate "/" (e :: rest))

/-- Two-argument Go `path.Join` as used by `uploadLocalFileToS3`. -/
def goPathJoin (a b : String) : String :=
  goPathJoinList [a, b]

/-- Go `filepath.Base` on a Unix path: `""` gives `"."`, trailing slashes are
stripped, the component after the last slash is returned, an all-slash path
gives `"/"`. -/
def goFilepathBase (p : String) : String :=
  if p = "" then "."
  else
    let stripped := (p.toList.reverse.dropWhile (fun c => c = '/')).reverse
    if stripped = [] then "/"
    else String.mk ((stripped.reverse.takeWhile (fun c => c ≠ '/')).reverse)

/-! ## Naming service -/

/-- Modelled from the spec: the Naming Service contract (spec section 4.1)
behind `CloudFormationResourceName`, whose implementation lives in the
external `Sparta/aws/cloudformation` package and is not among the provided
sources.  It must be a pure, deterministic function appending a digest of the
identity parts to a human-readable prefix; the digest algorithm itself is
"not semantically significant but must be stable across runs". -/
def specDigest (parts : List String) : Nat :=
  parts.foldl
    (fun acc part =>
      part.toList.foldl (fun a c => (a * 131 + c.toNat) % 1000000007)
        ((acc * 137 + 11) % 1000000007))
    7

/-- `CloudFormationResourceName(prefix, parts...)` (part_000, line 1134,
delegating to the external naming helper): human-readable prefix followed by a
stable digest of the identity parts. -/
def CloudFormationResourceName (pfx : String) (parts : List String) : String :=
  pfx ++ toString (specDigest parts)

/-- Modelled from the spec: `stableCloudformationResourceName` (referenced by
s3site_build.go but defined outside the provided sources) derives a
deterministic logical name from the prefix alone. -/
def stableCloudformationResourceName (pfx : String) : String :=
  CloudFormationResourceName pfx [pfx]

/-! ## Results of running Go code -/

/-- Outcome of a piece of Go code that can return a value, return a non-nil
error, or panic (e.g. by dereferencing a nil pointer or indexing out of
range). -/
inductive GoRes (α : Type) where
  | ok (val : α)
  | err (msg : String)
  | panicked
deriving Repr, DecidableEq

/-! ## IAM role definitions (part_000) -/

/-- `IAMRoleDefinition` (part_000, line 421): the privilege list is irrelevant
to the claims under study and kept opaque; `cachedLogicalName` is the cached
logical resource name used by `logicalName`. -/
structure IAMRoleDefinition where
  privileges : List String := []
  cachedLogicalName : String := ""
deriving Repr, DecidableEq

/-- `IAMRoleDefinition.logicalName` (part_000, lines 473-478): compute
`CloudFormationResourceName("IAMRole", serviceName, targetLambdaFnName)` on
first use, cache it, and afterwards return the cached name.  Go mutates the
struct through a pointer; the updated value is returned explicitly here. -/
def IAMRoleDefinition.logicalName (roleDefinition : IAMRoleDefinition)
    (serviceName targetLambdaFnName : String) : String × IAMRoleDefinition :=
  if roleDefinition.cachedLogicalName = "" then
    let n := CloudFormationResourceName "IAMRole" [serviceName, targetLambdaFnName]
    (n, { roleDefinition with cachedLogicalName := n })
  else (roleDefinition.cachedLogicalName, roleDefinition)

/-- `customResourceInfo` (part_000, line 545).  `roleDefinition` is a pointer
into a shared role-definition store (pointer identity is what Go uses to key
the role cache); `jsHandler` is the value of the `jsHandlerName()` helper,
which is not among the provided sources and is therefore treated as an opaque
attribute of the resource. -/
structure CustomResourceInfo where
  roleDefinition : Option Nat := none
  roleName : String := ""
  userFunctionName : String := ""
  jsHandler : String := ""
deriving Repr, DecidableEq

/-- `LambdaAWSInfo` (part_000, line 658), restricted to the fields the claims
exercise.  `signatureValid` is the outcome of `ensureValidSignature` (not
among the provided sources), `reflectedFnName` is the result of
`runtime.FuncForPC(reflect.ValueOf(info.lambdaFn).Pointer()).Name()`,
`spartaOptionsName` is `Options.SpartaOptions.Name` with `""` meaning the
option chain is absent, and `jsHandler` is the opaque `jsHandlerName()`
identifier used by the NodeJS shim. -/
structure LambdaAWSInfo where
  userSuppliedFunctionName : String := ""
  signatureValid : Bool := true
  spartaOptionsName : String := ""
  hasLambdaFn : Bool := false
  reflectedFnName : String := ""
  RoleName : String := ""
  RoleDefinition : Option Nat := none
  customResources : List CustomResourceInfo := []
  jsHandler : String := ""
  cachedLambdaFunctionName : String := ""
deriving Repr, DecidableEq

/-! ## Lambda function name derivation (part_000, lines 699-750) -/

/-- Scanner for Go `reCapture = regexp.MustCompile("\\(([^()]+)\\)")` used via
`FindAllString(s, -1)`: all leftmost non-overlapping substrings of the form
`(` + non-empty paren-free run + `)`.  The fuel is the input length; every
recursive call strictly shrinks the character list. -/
def reCaptureScanFuel : Nat → List Char → List String
  | 0, _ => []
  | _ + 1, [] => []
  | fuel + 1, c :: rest =>
    if c = '(' then
      let content := rest.takeWhile (fun d => d ≠ '(' && d ≠ ')')
      match rest.drop content.length with
      | ')' :: tail =>
        if content = [] then reCaptureScanFuel fuel rest
        else String.mk ('(' :: (content ++ [')'])) :: reCaptureScanFuel fuel tail
      | _ => reCaptureScanFuel fuel rest
    else reCaptureScanFuel fuel rest

/-- `reCapture.FindAllString(s, -1)` for the pattern `\(([^()]+)\)`. -/
def reCaptureFindAll (s : String) : List String :=
  reCaptureScanFuel s.length s.toList

/-- `reClean = regexp.MustCompile("[\\*\\(\\)]+")` used with
`ReplaceAllString(s, "")`: removal of every `*`, `(` and `)`. -/
def reCleanRemove (s : String) : String :=
  String.mk (s.toList.filter (fun c => c ≠ '*' && c ≠ '(' && c ≠ ')'))

/-- The name computation inside `lambdaFunctionName` (part_000, lines
705-745), run when no cached name exists.  `none` models the Go panic when the
struct-defined branch indexes `parts[1]` past the end of the capture list. -/
def computeLambdaFunctionName (info : LambdaAWSInfo) : Option String :=
  if info.spartaOptionsName ≠ "" then some info.spartaOptionsName
  else
    let baseName := if info.hasLambdaFn then info.reflectedFnName
                    else info.userSuppliedFunctionName
    let structDefined := strContainsChar baseName '(' || strContainsChar baseName ')'
    let otherPackage := strContainsChar baseName '/'
    if structDefined then
      match (reCaptureFindAll baseName).get? 1, (reCaptureFindAll baseName).get? 0 with
      | some p1, some p0 =>
        let funcNameParts := splitOnChar '/' p1
        let lastPart := funcNameParts.getLast?.getD ""
        some (sanitizedName (reCleanRemove (p0 ++ "-" ++ lastPart)))
      | _, _ => none
    else if otherPackage then
      some (sanitizedName ((splitOnChar '/' baseName).getLast?.getD ""))
    else some (sanitizedName baseName)

/-- `LambdaAWSInfo.lambdaFunctionName` (part_000, lines 701-750): return the
cached name when present, otherwise compute, cache, and return.  The updated
struct (Go mutates through the receiver pointer) is returned alongside. -/
def LambdaAWSInfo.lambdaFunctionName (info : LambdaAWSInfo) :
    Option (String × LambdaAWSInfo) :=
  if info.cachedLambdaFunctionName ≠ "" then some (info.cachedLambdaFunctionName, info)
  else
    match computeLambdaFunctionName info with
    | none => none
    | some n => some (n, { info with cachedLambdaFunctionName := n })

/-! ## First-occurrence deduplication (shared by the collision memo, the role
lookup loop and the shim registration loop) -/

/-- Keep the first occurrence of every string not already in `seen`. -/
def firstWinsFrom (seen : List String) : List String → List String
  | [] => []
  | n :: rest =>
    if seen.contains n then firstWinsFrom seen rest
    else n :: firstWinsFrom (n :: seen) rest

/-- First-occurrence deduplication of a string list. -/
def firstWins (names : List String) : List String :=
  firstWinsFrom [] names

/-- Keep the first pair for every key not already in `seen`. -/
def firstWinsPairsFrom (seen : List String) :
    List (String × String) → List (String × String)
  | [] => []
  | p :: rest =>
    if seen.contains p.1 then firstWinsPairsFrom seen rest
    else p :: firstWinsPairsFrom (p.1 :: seen) rest

/-- First-occurrence deduplication of a key-value list, keyed by the first
component. -/
def firstWinsPairs (ps : List (String × String)) : List (String × String) :=
  firstWinsPairsFrom [] ps

/-- The set of keys seen after scanning a pair list starting from `seen`. -/
def seenAfter (seen : List String) : List (String × String) → List String
  | [] => seen
  | p :: rest =>
    if seen.contains p.1 then seenAfter seen rest
    else seenAfter (p.1 :: seen) rest

/-! ## validateSpartaPreconditions (part_000, lines 1037-1113) -/

/-- Derive the function name of every lambda in order, threading the caches
(`lambdaFunctionName` mutates the receiver); `none` models a panic inside the
derivation. -/
def deriveAllNames : List LambdaAWSInfo → Option (List (String × LambdaAWSInfo))
  | [] => some []
  | l :: rest =>
    match l.lambdaFunctionName with
    | none => none
    | some (n, l2) => (deriveAllNames rest).map (fun r => (n, l2) :: r)

/-- All names fed to the collision memo: each lambda's derived function name
followed by its custom resources' user function names. -/
def collisionNames (derived : List (String × LambdaAWSInfo)) : List String :=
  derived.flatMap (fun p => p.1 :: p.2.customResources.map (fun c => c.userFunctionName))

/-- `validateSpartaPreconditions` (part_000, lines 1037-1113).  Step 0 records
one error per invalid handler signature; step 1 derives every function name
and records one error per name declared more than once (the Go version walks a
hash map in unspecified order; here duplicates are reported in first-occurrence
order, which the claims never observe).  When the error list is empty the Go
code finally checks that the `sysinfo` package is installed; that file-system
probe is the `sysinfoInstalled` oracle.  On success the lambdas are returned
with their name caches populated. -/
def validateSpartaPreconditions (lambdas : List LambdaAWSInfo)
    (sysinfoInstalled : Bool) : GoRes (List LambdaAWSInfo) :=
  let sigErrors := (lambdas.filter (fun l => !l.signatureValid)).map
    (fun l => "Invalid signature for function: " ++ l.userSuppliedFunctionName)
  match deriveAllNames lambdas with
  | none => .panicked
  | some derived =>
    let allNames := collisionNames derived
    let dupErrors := ((firstWins allNames).filter (fun n => 1 < allNames.count n)).map
      (fun n => "Multiple definitions of lambda: " ++ n)
    let errorText := sigErrors ++ dupErrors
    if errorText ≠ [] then .err (String.intercalate "\n" errorText)
    else if sysinfoInstalled then .ok (derived.map Prod.snd)
    else .err "Please run go get -u -v github.com/zcalusic/sysinfo to install this Linux-only package"

/-! ## CloudFormation template and role-name map models -/

/-- Body of a declared template resource; only the discriminating data the
claims inspect is kept. -/
inductive CFBody where
  | iamRole (roleDefId : Nat)
  | lambdaFunction (tag : String)
  | other (tag : String)
deriving Repr, DecidableEq

/-- The resource section of a `gocf.Template`, in insertion order. -/
abbrev CFTemplate := List (String × CFBody)

/-- A `gocf.StringExpr`: either a `GetAtt` reference or a literal string. -/
inductive StringExpr where
  | getAtt (logicalName attr : String)
  | lit (s : String)
deriving Repr, DecidableEq

/-- Key lookup in an association list keyed by strings. -/
def assocHas {α : Type} (m : List (String × α)) (k : String) : Bool :=
  (m.map Prod.fst).contains k

/-! ## verifyIAMRoles (provision.go, lines 349-425) -/

/-- The state mutated by `verifyIAMRoles`: the role-definition store (Go
pointer targets), the resources added to `ctx.cfTemplate`, the
`ctx.lambdaIAMRoleNameMap` cache, the collected `allRoleNames` slice and the
list of `iam.GetRole` calls issued (in order). -/
structure VerifyState where
  roleStore : List IAMRoleDefinition
  cfTemplate : CFTemplate := []
  roleNameMap : List (String × StringExpr) := []
  allRoleNames : List String := []
  lookups : List String := []
deriving Repr, DecidableEq

/-- Handling of one inline `IAMRoleDefinition` (provision.go, lines 371-382
and 385-397): resolve the pointer, compute/cache the logical name, and declare
the role resource plus the `GetAtt` map entry unless the name is already in
the map.  A dangling `defId` cannot arise from a Go pointer and leaves the
state unchanged. -/
def addInlineRole (serviceName fnName : String) (defId : Nat) (st : VerifyState) :
    VerifyState :=
  match st.roleStore.get? defId with
  | none => st
  | some rd =>
    let r := rd.logicalName serviceName fnName
    let store2 := st.roleStore.set defId r.2
    if assocHas st.roleNameMap r.1 then { st with roleStore := store2 }
    else
      { st with
          roleStore := store2,
          cfTemplate := st.cfTemplate ++ [(r.1, .iamRole defId)],
          roleNameMap := st.roleNameMap ++ [(r.1, .getAtt r.1 "Arn")] }

/-- The custom-resource loop of the first phase (provision.go, lines
385-397). -/
def addCustomInlineRoles (serviceName : String) (customs : List CustomResourceInfo)
    (st : VerifyState) : VerifyState :=
  customs.foldl
    (fun acc c =>
      match c.roleDefinition with
      | some cid => addInlineRole serviceName c.userFunctionName cid acc
      | none => acc)
    st

/-- One iteration of the first `verifyIAMRoles` loop (provision.go, lines
359-398) for a single lambda: collect the literal role names of the lambda and
its custom resources, then declare the lambda's inline role definition (which
requires its derived function name — `none` propagates a derivation panic) and
the custom resources' inline role definitions. -/
def verifyLambdaStep (serviceName : String) (st : VerifyState) (info : LambdaAWSInfo) :
    Option (VerifyState × LambdaAWSInfo) :=
  let withNames :=
    { st with
        allRoleNames := st.allRoleNames
          ++ (if info.RoleName ≠ "" then [info.RoleName] else [])
          ++ (info.customResources.filter (fun c => c.roleName ≠ "")).map
               (fun c => c.roleName) }
  match info.RoleDefinition with
  | some defId =>
    match info.lambdaFunctionName with
    | none => none
    | some (fnName, info2) =>
      let st2 := addInlineRole serviceName fnName defId withNames
      some (addCustomInlineRoles serviceName info2.customResources st2, info2)
  | none =>
    some (addCustomInlineRoles serviceName info.customResources withNames, info)

/-- First phase of `verifyIAMRoles`: the loop over all lambdas. -/
def verifyPhase1 (serviceName : String) (st : VerifyState) :
    List LambdaAWSInfo → Option (VerifyState × List LambdaAWSInfo)
  | [] => some (st, [])
  | info :: rest =>
    match verifyLambdaStep serviceName st info with
    | none => none
    | some (st2, info2) =>
      (verifyPhase1 serviceName st2 rest).map (fun r => (r.1, info2 :: r.2))

/-- Second phase of `verifyIAMRoles` (provision.go, lines 400-418): for each
collected role name not already in the map, issue one `iam.GetRole` lookup;
a lookup error aborts the step, a success caches the returned ARN. -/
def verifyPhase2 (getRole : String → Except String String) (st : VerifyState) :
    List String → GoRes VerifyState
  | [] => .ok st
  | name :: rest =>
    if assocHas st.roleNameMap name then verifyPhase2 getRole st rest
    else
      let st2 := { st with lookups := st.lookups ++ [name] }
      match getRole name with
      | .error e => .err e
      | .ok arn =>
        verifyPhase2 getRole
          { st2 with roleNameMap := st2.roleNameMap ++ [(name, .lit arn)] } rest

/-- `verifyIAMRoles` (provision.go, lines 349-425): reset the role-name map,
walk all lambdas declaring inline role definitions and collecting literal role
names, then check every literal role name against the identity service. -/
def verifyIAMRoles (serviceName : String) (getRole : String → Except String String)
    (roleStore : List IAMRoleDefinition) (lambdas : List LambdaAWSInfo) :
    GoRes (VerifyState × List LambdaAWSInfo) :=
  match verifyPhase1 serviceName { roleStore := roleStore } lambdas with
  | none => .panicked
  | some (st1, lambdas2) =>
    match verifyPhase2 getRole st1 st1.allRoleNames with
    | .err e => .err e
    | .panicked => .panicked
    | .ok st2 => .ok (st2, lambdas2)

/-! ## NodeJS shim generation (provision.go, lines 427-472 and 511-561) -/

/-- A single quote character, used in the generated shim tail. -/
def singleQuote : String := String.singleton (Char.ofNat 39)

/-- The five built-in custom resource types (provision.go, lines 71-77).  The
constant values live in the external `cloudformationresources` package; the
claims only rely on the five being distinct, which the modelled values are. -/
def golangCustomResourceTypes : List String :=
  ["Custom::goAWS::SESLambdaEventSource",
   "Custom::goAWS::S3LambdaEventSource",
   "Custom::goAWS::SNSLambdaEventSource",
   "Custom::goAWS::CloudWatchLogsLambdaEventSource",
   "Custom::goAWS::ZipToS3Bucket"]

/-- Modelled from the spec: `javascriptExportNameForCustomResourceType` (not
among the provided sources) sanitises the `::`-delimited resource type name
into a valid JS identifier. -/
def javascriptExportNameForCustomResourceType (resourceTypeName : String) : String :=
  sanitizedName resourceTypeName

/-- The text of one forwarding entry
(`createNewNodeJSProxyEntry` / `createUserCustomResourceEntry` /
`createNewSpartaCustomResourceEntry`, provision.go, lines 429-472):
`exports["<exportName>"] = createForwarder("/<target>");`. -/
def createForwarderEntry (exportName target : String) : String :=
  "exports[\"" ++ exportName ++ "\"] = createForwarder(\"/" ++ target ++ "\");\n"

/-- The inner custom-resource registration loop of `writeNodeJSShim`
(provision.go, lines 536-541), threading the `handlerNames` set; returns the
final set and the emitted `(exportName, forwardTarget)` entries. -/
def shimCustomEntries (seen : List String) :
    List CustomResourceInfo → List String × List (String × String)
  | [] => (seen, [])
  | c :: rest =>
    if seen.contains c.jsHandler then shimCustomEntries seen rest
    else
      let r := shimCustomEntries (c.jsHandler :: seen) rest
      (r.1, (c.jsHandler, c.userFunctionName) :: r.2)

/-- The outer registration loop of `writeNodeJSShim` (provision.go, lines
528-542): one forwarding entry per unseen lambda handler name, then the
lambda's custom resources, with the `handlerNames` set shared across all
iterations.  The forwarding target of a lambda entry is its (already cached)
function name, matching `createNewNodeJSProxyEntry`. -/
def shimUserEntriesFrom (seen : List String) :
    List LambdaAWSInfo → List (String × String)
  | [] => []
  | info :: rest =>
    if seen.contains info.jsHandler then
      let r := shimCustomEntries seen info.customResources
      r.2 ++ shimUserEntriesFrom r.1 rest
    else
      let r := shimCustomEntries (info.jsHandler :: seen) info.customResources
      (info.jsHandler, info.cachedLambdaFunctionName) :: (r.2 ++ shimUserEntriesFrom r.1 rest)

/-- All user-defined forwarding entries emitted by `writeNodeJSShim`. -/
def shimUserEntries (lambdas : List LambdaAWSInfo) : List (String × String) :=
  shimUserEntriesFrom [] lambdas

/-- The five built-in entries appended after the user entries (provision.go,
lines 543-546); these are emitted unconditionally, one per built-in type. -/
def shimBuiltinEntries : List (String × String) :=
  golangCustomResourceTypes.map
    (fun n => (javascriptExportNameForCustomResourceType n, n))

/-- The flattened registration sequence fed to the deduplicating loop: each
lambda's handler identifier (with its function name as target) followed by its
custom resources' identifiers, in program order. -/
def shimPairs (lambdas : List LambdaAWSInfo) : List (String × String) :=
  lambdas.flatMap (fun info =>
    (info.jsHandler, info.cachedLambdaFunctionName) ::
      info.customResources.map (fun c => (c.jsHandler, c.userFunctionName)))

/-- The full generated `index.js` content (provision.go, lines 521-556):
the embedded `resources/index.js` source (an external embedded asset, passed
in), the generation banner, the user entries, the built-in entries, and the
binary/service name assignments. -/
def nodeJSShimSource (serviceName executableOutput escIndexJs : String)
    (lambdas : List LambdaAWSInfo) : String :=
  let entries := shimUserEntries lambdas ++ shimBuiltinEntries
  escIndexJs
    ++ "\n// DO NOT EDIT - CONTENT UNTIL EOF IS AUTOMATICALLY GENERATED\n"
    ++ String.join (entries.map (fun p => createForwarderEntry p.1 p.2))
    ++ "SPARTA_BINARY_NAME=" ++ singleQuote ++ executableOutput ++ singleQuote ++ ";\n"
    ++ "SPARTA_SERVICE_NAME=" ++ singleQuote ++ serviceName ++ singleQuote ++ ";\n"

/-- `writeNodeJSShim` (provision.go, lines 511-561) with its two fallible zip
operations as oracles: creating the `index.js` entry and copying the generated
source into it. -/
def writeNodeJSShim (serviceName executableOutput escIndexJs : String)
    (lambdas : List LambdaAWSInfo) (zipCreateOk : Bool) (copyErr : Option String) :
    Except String String :=
  if !zipCreateOk then .error "Failed to create ZIP entry: index.js"
  else
    match copyErr with
    | some e => .error e
    | none => .ok (nodeJSShimSource serviceName executableOutput escIndexJs lambdas)

/-! ## Rollback actions and the rollback run (provision.go, lines 145-199) -/

/-- `spartaS3.CreateS3RollbackFunc(session, bucket, key)`: a compensating
delete of one uploaded object, bound at registration time. -/
structure RollbackAction where
  s3Bucket : String
  s3Key : String
deriving Repr, DecidableEq

/-- `ctx.rollback()` (provision.go, lines 155-199): every registered function
is invoked (concurrently in Go; the join makes the set of invocations
order-insensitive) and a failing action only contributes a logged warning —
the function returns nothing, so no rollback failure can surface as an error.
Returns the invoked actions and the warnings logged. -/
def workflowRollback (actions : List RollbackAction)
    (outcome : RollbackAction → Option String) :
    List RollbackAction × List String :=
  (actions, actions.filterMap outcome)

/-! ## Workflow context (provision.go, lines 98-152) -/

/-- The hook registrations of a `WorkflowHooks` value.  Each field merges
presence with behaviour: `none` means the hook is nil, `some r` means the hook
is set and returns `r` when called. -/
structure WorkflowHooksM where
  preBuild : Option (Option String) := none
  postBuild : Option (Option String) := none
  archive : Option (Option String) := none
  preMarshall : Option (Option String) := none
  serviceDecorator : Option (Option String) := none
  postMarshall : Option (Option String) := none
  rollbackHook : Bool := false
deriving Repr, DecidableEq

/-- `callWorkflowHook` (provision.go, lines 206-224) composed with the
`ctx.workflowHooks != nil` guard at each call site: a missing hooks struct or
a nil hook yields no error. -/
def hookError (hooks : Option WorkflowHooksM)
    (select : WorkflowHooksM → Option (Option String)) : Option String :=
  match hooks with
  | none => none
  | some h =>
    match select h with
    | none => none
    | some r => r

/-- Whether a particular hook is present. -/
def hookPresent (hooks : Option WorkflowHooksM)
    (select : WorkflowHooksM → Option (Option String)) : Bool :=
  match hooks with
  | none => false
  | some h => (select h).isSome

/-- The `workflowContext` fields the claims exercise (provision.go, lines
98-143).  `api` and `s3SitePresent` model the optional gateway and site
declarations (their bodies are external to the workflow engine). -/
structure WorkflowCtx where
  noop : Bool := false
  serviceName : String := ""
  serviceDescription : String := ""
  lambdas : List LambdaAWSInfo := []
  roleStore : List IAMRoleDefinition := []
  api : Bool := false
  s3SitePresent : Bool := false
  cfTemplate : CFTemplate := []
  roleNameMap : List (String × StringExpr) := []
  s3Bucket : String := ""
  buildID : String := ""
  buildTags : String := ""
  s3LambdaZipKey : String := ""
  s3SiteLambdaZipKey : String := ""
  hooks : Option WorkflowHooksM := none
  templateWriterPresent : Bool := false
  rollbackFunctions : List RollbackAction := []
deriving Repr

/-- `ctx.registerRollback` (provision.go, lines 147-152): append one
compensating action. -/
def WorkflowCtx.registerRollback (ctx : WorkflowCtx) (a : RollbackAction) :
    WorkflowCtx :=
  { ctx with rollbackFunctions := ctx.rollbackFunctions ++ [a] }

/-! ## S3 upload (provision.go, lines 253-339) -/

/-- Oracles for one `uploadLocalFileToS3` call: the
`GetBucketLifecycleConfiguration` outcome and the `spartaS3.UploadLocalFileToS3`
outcome. -/
structure S3CallEnv where
  lifecycleErr : Option String := none
  uploadErr : Option String := none
deriving Repr, DecidableEq

/-- Object-storage calls actually performed. -/
inductive S3Event where
  | getLifecycle (bucket : String)
  | uploadFile (localPath bucket keyPrefix : String)
deriving Repr, DecidableEq

/-- `ensureExpirationPolicy` (provision.go, lines 256-293): skipped entirely
under noop; otherwise one lifecycle query is issued, a missing lifecycle
configuration is only a warning, and any other query error is fatal. -/
def ensureExpirationPolicy (S3Bucket : String) (noop : Bool) (env : S3CallEnv) :
    Option String × List S3Event :=
  if noop then (none, [])
  else
    match env.lifecycleErr with
    | some e =>
      if containsSub e "NoSuchLifecycleConfiguration" then
        (none, [.getLifecycle S3Bucket])
      else (some ("Failed to fetch S3 Bucket Policy: " ++ e), [.getLifecycle S3Bucket])
    | none => (none, [.getLifecycle S3Bucket])

/-- `uploadLocalFileToS3` (provision.go, lines 297-339): check the expiration
policy, compute `path.Join(S3KeyPrefix, filepath.Base(localPath))`, skip the
actual upload under noop, and return the key on success.  (The deferred
best-effort deletion of the local file touches only the local file system and
is dropped.) -/
def uploadLocalFileToS3 (localPath S3Bucket S3KeyPrefix : String) (noop : Bool)
    (env : S3CallEnv) : Except String String × List S3Event :=
  match ensureExpirationPolicy S3Bucket noop env with
  | (some e, evts) => (.error ("Failed to ensure bucket policies: " ++ e), evts)
  | (none, evts) =>
    let keyName := goPathJoin S3KeyPrefix (goFilepathBase localPath)
    if noop then (.ok keyName, evts)
    else
      match env.uploadErr with
      | some e => (.error e, evts ++ [.uploadFile localPath S3Bucket S3KeyPrefix])
      | none => (.ok keyName, evts ++ [.uploadFile localPath S3Bucket S3KeyPrefix])

/-! ## Workflow step identities -/

/-- The steps of the provisioning chain.  A Go `workflowStep` is a closure;
the only data a closure of this chain captures is the package path handed to
the upload step, so steps are identified by this tag. -/
inductive StepId where
  | verifyRoles
  | packageStep
  | uploadStep (packagePath : String)
  | ensureStack
deriving Repr, DecidableEq

/-! ## The upload step (provision.go, lines 689-776) -/

/-- Oracles for the site goroutine's local stages before its upload:
`temporaryFile`, `filepath.Abs` and `spartaZip.AddToZip`. -/
structure SiteZipEnv where
  tmpFileOk : Bool := true
  tmpFileName : String := ""
  absErr : Option String := none
  addToZipErr : Option String := none
deriving Repr, DecidableEq

/-- Oracles for one run of the upload step: the primary upload's S3 calls, the
site archive stages, and the site upload's S3 calls. -/
structure UploadStepEnv where
  primary : S3CallEnv := {}
  siteZip : SiteZipEnv := {}
  site : S3CallEnv := {}
deriving Repr, DecidableEq

/-- The first error produced by the site goroutine before it reaches its
upload call (provision.go, lines 723-748): temporary-file creation, absolute
path resolution, then zip population. -/
def siteZipStageError (env : UploadStepEnv) : Option String :=
  if !env.siteZip.tmpFileOk then some "Failed to create temporary S3 site archive file"
  else
    match env.siteZip.absErr with
    | some e => some e
    | none => env.siteZip.addToZipErr

/-- The key a Go `(string, error)` upload result assigns: the key on success
and the zero value on error (the Go callers assign the returned key to the
context before testing the error). -/
def keyOf (r : Except String String) : String :=
  match r with
  | .ok k => k
  | .error _ => ""

/-- The error-aggregation loop closing `createUploadStep` (provision.go, lines
767-773), verbatim: `errorText` starts as the header, the loop body appends
`fmt.Sprintf("%s%s\n", errorText, err)` to `errorText` — and then returns from
inside the loop, so at most one collected error is ever examined. -/
def uploadErrorsLoop (errorText : String) : List String → Option String
  | [] => none
  | e :: _ => some (errorText ++ (errorText ++ e ++ "\n"))

/-- The aggregate-error construction guarded by `len(uploadErrors) > 0`. -/
def uploadErrorsAggregate (uploadErrors : List String) : Option String :=
  if 0 < uploadErrors.length then
    uploadErrorsLoop "Encountered multiple errors during upload:\n" uploadErrors
  else none

/-- The primary-upload goroutine's mutation of the context (provision.go,
lines 697-715): store the returned key (the zero value on error) before
testing the error, then register the compensating delete only on success
outside noop. -/
def uploadPrimaryCtx (packagePath : String) (ctx : WorkflowCtx)
    (env : UploadStepEnv) : WorkflowCtx :=
  let prim1 := (uploadLocalFileToS3 packagePath ctx.s3Bucket ctx.serviceName
    ctx.noop env.primary).1
  let ctx1 := { ctx with s3LambdaZipKey := keyOf prim1 }
  match prim1 with
  | .ok k => if ctx1.noop then ctx1 else ctx1.registerRollback ⟨ctx1.s3Bucket, k⟩
  | .error _ => ctx1

/-- The error the primary-upload goroutine appends to `uploadErrors`. -/
def uploadPrimaryErrs (packagePath : String) (ctx : WorkflowCtx)
    (env : UploadStepEnv) : List String :=
  match (uploadLocalFileToS3 packagePath ctx.s3Bucket ctx.serviceName ctx.noop
    env.primary).1 with
  | .error e => [e]
  | .ok _ => []

/-- The site goroutine (provision.go, lines 717-764), run against the context
it observes after the join: build the site archive (three fallible local
stages), upload it, store the returned key, and register the compensating
delete only on success outside noop.  Returns its appended errors, the
resulting context and its S3 calls. -/
def uploadSiteStage (ctx2 : WorkflowCtx) (env : UploadStepEnv) :
    List String × WorkflowCtx × List S3Event :=
  if ctx2.s3SitePresent then
    match siteZipStageError env with
    | some e => ([e], ctx2, [])
    | none =>
      let siteRes := uploadLocalFileToS3 env.siteZip.tmpFileName ctx2.s3Bucket
        ctx2.serviceName ctx2.noop env.site
      let ctx3 := { ctx2 with s3SiteLambdaZipKey := keyOf siteRes.1 }
      match siteRes.1 with
      | .error e => ([e], ctx3, siteRes.2)
      | .ok k =>
        ([], (if ctx3.noop then ctx3 else ctx3.registerRollback ⟨ctx3.s3Bucket, k⟩),
         siteRes.2)
  else ([], ctx2, [])

/-- `createUploadStep(packagePath)` (provision.go, lines 691-776).  The two
goroutines are sequentialised primary-then-site (both are joined before the
step returns, and each appends its own error and registers its own rollback
action independently; only the order of `uploadErrors` is affected, which no
claim observes beyond emptiness and membership).  The collected errors feed
the aggregate-error construction; with no error the chain continues at the
stack-assembly step. -/
def createUploadStepRun (packagePath : String) (ctx : WorkflowCtx)
    (env : UploadStepEnv) :
    (WorkflowCtx × Option StepId × Option String) × List S3Event :=
  let prim := uploadLocalFileToS3 packagePath ctx.s3Bucket ctx.serviceName ctx.noop env.primary
  let siteStage := uploadSiteStage (uploadPrimaryCtx packagePath ctx env) env
  match uploadErrorsAggregate (uploadPrimaryErrs packagePath ctx env ++ siteStage.1) with
  | some e => ((siteStage.2.1, none, some e), prim.2 ++ siteStage.2.2)
  | none => ((siteStage.2.1, some .ensureStack, none), prim.2 ++ siteStage.2.2)

/-! ## The package step (provision.go, lines 586-687) -/

/-- Oracles for one run of the package step: the `go generate`/`go build`
invocation, temporary-file creation, the zip population stages and the two
close calls.  Hook outcomes live in the context's hook model. -/
structure PackageEnv where
  buildErr : Option String := none
  tmpFileOk : Bool := true
  tmpFileName : String := ""
  addBinaryErr : Option String := none
  shimZipCreateOk : Bool := true
  shimCopyErr : Option String := none
  escIndexJs : String := ""
  customResourcesErr : Option String := none
  archiveCloseErr : Option String := none
  tmpCloseErr : Option String := none
deriving Repr, DecidableEq

/-- `createPackageStep()` (provision.go, lines 586-687): pre-build hook, `go`
build, post-build hook, temporary archive file, archive hook, binary entry,
NodeJS shim, custom-resource scripts, archive close, file close; each failure
aborts the step, success hands the archive path to the upload step. -/
def createPackageStepRun (ctx : WorkflowCtx) (env : PackageEnv) :
    WorkflowCtx × Option StepId × Option String :=
  match hookError ctx.hooks (fun h => h.preBuild) with
  | some e => (ctx, none, some e)
  | none =>
  match env.buildErr with
  | some e => (ctx, none, some e)
  | none =>
  match hookError ctx.hooks (fun h => h.postBuild) with
  | some e => (ctx, none, some e)
  | none =>
  if !env.tmpFileOk then (ctx, none, some "Failed to create temporary file")
  else
  match hookError ctx.hooks (fun h => h.archive) with
  | some e => (ctx, none, some e)
  | none =>
  match env.addBinaryErr with
  | some e => (ctx, none, some e)
  | none =>
  match writeNodeJSShim ctx.serviceName
      (sanitizedName ctx.serviceName ++ ".lambda.amd64") env.escIndexJs
      ctx.lambdas env.shimZipCreateOk env.shimCopyErr with
  | .error e => (ctx, none, some e)
  | .ok _ =>
  match env.customResourcesErr with
  | some e => (ctx, none, some e)
  | none =>
  match env.archiveCloseErr with
  | some e => (ctx, none, some e)
  | none =>
  match env.tmpCloseErr with
  | some e => (ctx, none, some e)
  | none => (ctx, some (.uploadStep env.tmpFileName), none)

/-! ## The S3 site export (s3site_build.go, lines 35-234) -/

/-- Oracles for `S3Site.export`: the `lambdaFunctionEnvironment` call, the
`newCloudFormationResource` call, and the custom-resource type assertion. -/
structure SiteExportEnv where
  lambdaEnvErr : Option String := none
  newResourceErr : Option String := none
  typeAssertOk : Bool := true
deriving Repr, DecidableEq

/-- `S3Site.export` (s3site_build.go, lines 35-234): declare the site bucket,
its public-read policy, the management IAM role, the site-creator lambda and
the `ZipToS3Bucket` custom resource, in order, aborting with an error at the
three fallible points.  Resource bodies irrelevant to the claims are tagged
with their CloudFormation types; `CloudFormationS3ResourceName` and the other
stable name helpers are outside the provided sources and modelled by the
deterministic naming service. -/
def s3SiteExportRun (env : SiteExportEnv) (template : CFTemplate) :
    CFTemplate × Option String :=
  let t1 := template ++ [(stableCloudformationResourceName "S3Site", .other "AWS::S3::Bucket")]
  let t2 := t1 ++ [(stableCloudformationResourceName "S3SiteBucketPolicy", .other "AWS::S3::BucketPolicy")]
  let t3 := t2 ++ [(stableCloudformationResourceName "S3SiteIAMRole", .other "AWS::IAM::Role")]
  match env.lambdaEnvErr with
  | some e => (t3, some ("Failed to create S3 site resource: " ++ e))
  | none =>
    let t4 := t3 ++ [(stableCloudformationResourceName "S3SiteCreator", .other "AWS::Lambda::Function")]
    match env.newResourceErr with
    | some e => (t4, some ("Failed to create ZipToS3Bucket CustomResource: " ++ e))
    | none =>
      if !env.typeAssertOk then
        (t4, some "Failed to type assert *cfCustomResources.ZipToS3BucketResource custom resource")
      else
        (t4 ++ [(CloudFormationResourceName "S3SiteBuilder" [], .other "CustomResource")], none)

/-! ## The template-assembly step (provision.go, lines 807-973) -/

/-- Oracles for the template-assembly step: the per-lambda export results (one
entry per lambda, in order), the API gateway export and merge, the site
export, the decorator merge, the template marshalling and the final converge
call. -/
structure StackEnv where
  lambdaExportErrs : List (Option String) := []
  apiExportErr : Option String := none
  apiMergeErr : Option String := none
  siteExport : SiteExportEnv := {}
  decoratorMergeErr : Option String := none
  marshalErr : Option String := none
  convergeErr : Option String := none
deriving Repr

/-- `applyCloudFormationOperation` (provision.go, lines 807-874): marshal the
template for the optional template writer (the debug-level condition is folded
into `templateWriterPresent`), then either bypass the converge under noop or
call `ConvergeStackState` and register the compensating delete of the uploaded
template on success.  The template S3 key embeds a digest of the build id
(`sha1` in the source; the stable modelled digest here). -/
def applyCloudFormationOperationRun (ctx : WorkflowCtx) (env : StackEnv) :
    WorkflowCtx × Option StepId × Option String :=
  match (if ctx.templateWriterPresent then env.marshalErr else none) with
  | some e => (ctx, none, some e)
  | none =>
    let s3KeyName := ctx.serviceName ++ "/" ++ sanitizedName ctx.serviceName
      ++ "-" ++ toString (specDigest [ctx.buildID]) ++ "-cf.json"
    if ctx.noop then (ctx, none, none)
    else
      match env.convergeErr with
      | some e => (ctx, none, some e)
      | none => (ctx.registerRollback ⟨ctx.s3Bucket, s3KeyName⟩, none, none)

/-- `ensureCloudFormationStack()` (provision.go, lines 876-973): pre-marshall
hook, per-lambda exports (first error aborts), API gateway export+merge (any
failure is replaced by a generic message and aborts), the S3 site export —
whose returned error is DISCARDED by the caller (provision.go, lines 922-931:
the call's result is not assigned) — the service decorator and its merge, the
discovery annotation (a pure template walk, invisible to the claims), the
post-marshall hook, and finally the CloudFormation operation. -/
def ensureStackRun (ctx : WorkflowCtx) (env : StackEnv) :
    WorkflowCtx × Option StepId × Option String :=
  match hookError ctx.hooks (fun h => h.preMarshall) with
  | some e => (ctx, none, some e)
  | none =>
  match env.lambdaExportErrs.findSome? id with
  | some e => (ctx, none, some e)
  | none =>
  match (if ctx.api then
          match env.apiExportErr with
          | some _ => some "Failed to export APIGateway template resources"
          | none =>
            match env.apiMergeErr with
            | some _ => some "Failed to export APIGateway template resources"
            | none => none
        else none) with
  | some e => (ctx, none, some e)
  | none =>
  let ctx2 :=
    if ctx.s3SitePresent then
      { ctx with cfTemplate := (s3SiteExportRun env.siteExport ctx.cfTemplate).1 }
    else ctx
  match hookError ctx2.hooks (fun h => h.serviceDecorator) with
  | some e => (ctx2, none, some e)
  | none =>
  match (if hookPresent ctx2.hooks (fun h => h.serviceDecorator)
         then env.decoratorMergeErr else none) with
  | some e => (ctx2, none, some e)
  | none =>
  match hookError ctx2.hooks (fun h => h.postMarshall) with
  | some e => (ctx2, none, some e)
  | none => applyCloudFormationOperationRun ctx2 env

/-! ## The workflow driver (provision.go, lines 1060-1077) -/

/-- Observable events of one workflow run: each step's return (with its error)
and each rollback invocation (with the actions invoked and the warnings their
failures produced). -/
inductive WEvent (ι : Type) where
  | stepReturned (id : ι) (stepErr : Option String)
  | rollbackRun (invoked : List RollbackAction) (warnings : List String)
deriving Repr, DecidableEq

/-- The `Provision` step loop (provision.go, lines 1060-1077), generic in the
state and step-identity types: run the current step; a non-nil error triggers
`ctx.rollback()` and returns that error; a nil next step terminates
successfully; otherwise the returned step becomes current.  The fuel only
bounds the recursion (`none` = the chain did not terminate within the fuel);
the concrete Sparta chain has four steps. -/
def runWorkflow {σ ι : Type} (prog : ι → σ → σ × Option ι × Option String)
    (rollbackOf : σ → List RollbackAction)
    (rollbackOutcome : RollbackAction → Option String) :
    Nat → ι → σ → Option (σ × List (WEvent ι) × Option String)
  | 0, _, _ => none
  | fuel + 1, id, st =>
    let r := prog id st
    match r.2.2 with
    | some e =>
      let rb := workflowRollback (rollbackOf r.1) rollbackOutcome
      some (r.1, [.stepReturned id (some e), .rollbackRun rb.1 rb.2], some e)
    | none =>
      match r.2.1 with
      | none => some (r.1, [.stepReturned id none], none)
      | some nextId =>
        match runWorkflow prog rollbackOf rollbackOutcome fuel nextId r.1 with
        | none => none
        | some (st2, evts, res) => some (st2, .stepReturned id none :: evts, res)

/-- Number of rollback invocations recorded in a trace. -/
def rollbackRunCount {ι : Type} (evts : List (WEvent ι)) : Nat :=
  evts.countP (fun e =>
    match e with
    | .rollbackRun _ _ => true
    | _ => false)

/-- The step results recorded in a trace, in order. -/
def stepErrorsOf {ι : Type} (evts : List (WEvent ι)) : List (Option String) :=
  evts.filterMap (fun e =>
    match e with
    | .stepReturned _ r => some r
    | _ => none)

/-! ## The concrete chain and Provision (provision.go, lines 1001-1079) -/

/-- All oracles of one provisioning run. -/
structure ProvEnv where
  getRole : String → Except String String := fun _ => .error "no such role"
  sysinfoInstalled : Bool := true
  packageEnv : PackageEnv := {}
  uploadEnv : UploadStepEnv := {}
  stackEnv : StackEnv := {}
  rollbackOutcome : RollbackAction → Option String := fun _ => none

/-- The role-verification step wired into the chain: on success the verified
role map, the declared role resources and the updated caches are merged into
the context.  The panic case is unreachable after a successful precondition
validation (every name cache is then already populated) and reported as a
panic message. -/
def verifyRolesStepRun (env : ProvEnv) (ctx : WorkflowCtx) :
    WorkflowCtx × Option StepId × Option String :=
  match verifyIAMRoles ctx.serviceName env.getRole ctx.roleStore ctx.lambdas with
  | .panicked => (ctx, none, some "panic: runtime error: index out of range")
  | .err e => (ctx, none, some e)
  | .ok r =>
    ({ ctx with
        roleStore := r.1.roleStore,
        lambdas := r.2,
        cfTemplate := ctx.cfTemplate ++ r.1.cfTemplate,
        roleNameMap := r.1.roleNameMap },
     some .packageStep, none)

/-- The concrete Sparta step chain
`verifyIAMRoles → createPackageStep → createUploadStep → ensureCloudFormationStack`. -/
def spartaProg (env : ProvEnv) :
    StepId → WorkflowCtx → WorkflowCtx × Option StepId × Option String
  | .verifyRoles, ctx => verifyRolesStepRun env ctx
  | .packageStep, ctx => createPackageStepRun ctx env.packageEnv
  | .uploadStep p, ctx => (createUploadStepRun p ctx env.uploadEnv).1
  | .ensureStack, ctx => ensureStackRun ctx env.stackEnv

/-- The initial workflow context built by `Provision` (provision.go, lines
1020-1040). -/
def initWorkflowCtx (noop : Bool) (serviceName serviceDescription s3Bucket buildID buildTags : String)
    (lambdas : List LambdaAWSInfo) (roleStore : List IAMRoleDefinition)
    (api s3SitePresent : Bool) (hooks : Option WorkflowHooksM)
    (templateWriterPresent : Bool) : WorkflowCtx :=
  { noop := noop,
    serviceName := serviceName,
    serviceDescription := serviceDescription,
    lambdas := lambdas,
    roleStore := roleStore,
    api := api,
    s3SitePresent := s3SitePresent,
    s3Bucket := s3Bucket,
    buildID := buildID,
    buildTags := buildTags,
    hooks := hooks,
    templateWriterPresent := templateWriterPresent }

/-- `Provision` (provision.go, lines 1001-1079): validate the preconditions
(returning immediately on failure, before any step runs), reject an empty
function list before entering the loop, then drive the step chain; a step
error rolls back once and is returned, and the chain otherwise ends at the
first `(nil, nil)` step.  Fuel 8 strictly exceeds the four-step chain, so the
fuel-exhaustion branch is unreachable. -/
def Provision (env : ProvEnv) (noop : Bool)
    (serviceName serviceDescription s3Bucket buildID buildTags : String)
    (lambdas : List LambdaAWSInfo) (roleStore : List IAMRoleDefinition)
    (api s3SitePresent : Bool) (hooks : Option WorkflowHooksM)
    (templateWriterPresent : Bool) : GoRes Unit × List (WEvent StepId) :=
  match validateSpartaPreconditions lambdas env.sysinfoInstalled with
  | .panicked => (.panicked, [])
  | .err e => (.err e, [])
  | .ok lambdas2 =>
    if lambdas2.length ≤ 0 then
      (.err "No lambda functions provided to Sparta.Provision()", [])
    else
      let ctx := initWorkflowCtx noop serviceName serviceDescription s3Bucket
        buildID buildTags lambdas2 roleStore api s3SitePresent hooks
        templateWriterPresent
      match runWorkflow (spartaProg env) (fun c => c.rollbackFunctions)
          env.rollbackOutcome 8 .verifyRoles ctx with
      | none => (.panicked, [])
      | some (_, evts, none) => (.ok (), evts)
      | some (_, evts, some e) => (.err e, evts)

/-! ## API Gateway resources and methods (apigateway.go) -/

/-- `Integration` (apigateway.go, line 41), restricted to shapes: the claim
under study never inspects the payload. -/
structure IntegrationM where
  parameters : List (String × String) := []
  responses : List Nat := []
deriving Repr, DecidableEq

/-- `Method` (apigateway.go, lines 97-111). -/
structure Method where
  authorizationType : String := ""
  httpMethod : String := ""
  APIKeyRequired : Bool := false
  parameters : List (String × Bool) := []
  models : List (String × String) := []
  responses : List Nat := []
  integration : IntegrationM := {}
deriving Repr, DecidableEq

/-- `Resource` (apigateway.go, lines 169-173); the parent lambda reference is
irrelevant to the claim. -/
structure Resource where
  pathPart : String := ""
  methods : List (String × Method) := []
deriving Repr, DecidableEq

/-- `Resource.NewMethod` (apigateway.go, lines 372-397): reject an already
defined method name, otherwise create a method whose authorization type is
`"NONE"` and store it under the method name.  Go returns a pointer aliased
into the map; the pair of the updated resource and the method stands in. -/
def Resource.NewMethod (resource : Resource) (httpMethod : String) :
    Except String (Resource × Method) :=
  let authorizationType := "NONE"
  if assocHas resource.methods httpMethod then
    .error ("Method " ++ httpMethod ++ " (Auth: " ++ authorizationType
      ++ ") already defined for resource")
  else
    let method : Method :=
      { authorizationType := authorizationType, httpMethod := httpMethod }
    .ok ({ resource with methods := resource.methods ++ [(httpMethod, method)] },
         method)

/-- `Resource.NewAuthorizedMethod` (apigateway.go, lines 400-406), verbatim:
the supplied authorization type is written through `method` only inside the
`nil != err` branch — where `method` is the nil pointer `NewMethod` returned
alongside the error, so the write panics; on the success branch the
assignment never runs and the method keeps `"NONE"`. -/
def Resource.NewAuthorizedMethod (resource : Resource)
    (httpMethod authorizationType : String) : GoRes (Resource × Method) :=
  match resource.NewMethod httpMethod with
  | .ok rm => .ok rm
  | .error _ => .panicked

/-! ## Shared auxiliary lemmas -/

lemma iamPrefixed_ne_empty (x : String) : ("IAMRole" ++ x) ≠ "" := by
  intro h
  have h2 := congrArg String.length h
  rw [String.length_append] at h2
  have h7 : ("IAMRole" : String).length = 7 := by decide
  have h0 : ("" : String).length = 0 := by decide
  rw [h7, h0] at h2
  omega

lemma cloudFormationResourceName_iamRole_ne_empty (parts : List String) :
    CloudFormationResourceName "IAMRole" parts ≠ "" :=
  iamPrefixed_ne_empty _

lemma lambdaInfo_update_cached_self (info : LambdaAWSInfo) :
    { info with cachedLambdaFunctionName := info.cachedLambdaFunctionName } = info := by
  cases info
  rfl

/-- The rollback action the primary upload contributes: present exactly when
the upload succeeded outside noop. -/
def primRollbackDelta (packagePath : String) (ctx : WorkflowCtx)
    (env : UploadStepEnv) : List RollbackAction :=
  match (uploadLocalFileToS3 packagePath ctx.s3Bucket ctx.serviceName ctx.noop
    env.primary).1 with
  | .error _ => []
  | .ok k => if ctx.noop then [] else [⟨ctx.s3Bucket, k⟩]

/-- The rollback action the site goroutine contributes: present exactly when a
site is declared, its archive stages succeed, and its upload succeeds outside
noop. -/
def siteRollbackDelta (c : WorkflowCtx) (env : UploadStepEnv) :
    List RollbackAction :=
  if c.s3SitePresent then
    match siteZipStageError env with
    | some _ => []
    | none =>
      match (uploadLocalFileToS3 env.siteZip.tmpFileName c.s3Bucket c.serviceName
        c.noop env.site).1 with
      | .error _ => []
      | .ok k => if c.noop then [] else [⟨c.s3Bucket, k⟩]
  else []

lemma uploadPrimaryCtx_s3LambdaZipKey (packagePath : String) (ctx : WorkflowCtx)
    (env : UploadStepEnv) :
    (uploadPrimaryCtx packagePath ctx env).s3LambdaZipKey
      = keyOf (uploadLocalFileToS3 packagePath ctx.s3Bucket ctx.serviceName
          ctx.noop env.primary).1 := by
  rw [uploadPrimaryCtx]
  split <;> (try split) <;> simp_all [WorkflowCtx.registerRollback]

lemma uploadPrimaryCtx_fields (packagePath : String) (ctx : WorkflowCtx)
    (env : UploadStepEnv) :
    (uploadPrimaryCtx packagePath ctx env).noop = ctx.noop
    ∧ (uploadPrimaryCtx packagePath ctx env).s3SitePresent = ctx.s3SitePresent
    ∧ (uploadPrimaryCtx packagePath ctx env).s3Bucket = ctx.s3Bucket
    ∧ (uploadPrimaryCtx packagePath ctx env).serviceName = ctx.serviceName := by
  rw [uploadPrimaryCtx]
  split <;> (try split) <;> simp_all [WorkflowCtx.registerRollback]

lemma uploadPrimaryCtx_rollbackFunctions (packagePath : String) (ctx : WorkflowCtx)
    (env : UploadStepEnv) :
    (uploadPrimaryCtx packagePath ctx env).rollbackFunctions
      = ctx.rollbackFunctions ++ primRollbackDelta packagePath ctx env := by
  rw [uploadPrimaryCtx, primRollbackDelta]
  split <;> (try split) <;> (try split) <;> simp_all [WorkflowCtx.registerRollback]

lemma uploadSiteStage_s3LambdaZipKey (c : WorkflowCtx) (env : UploadStepEnv) :
    (uploadSiteStage c env).2.1.s3LambdaZipKey = c.s3LambdaZipKey := by
  rw [uploadSiteStage]
  by_cases hs : c.s3SitePresent
  · rw [if_pos hs]
    cases hz : siteZipStageError env with
    | some e => simp
    | none =>
      simp only []
      cases hr : (uploadLocalFileToS3 env.siteZip.tmpFileName c.s3Bucket
          c.serviceName c.noop env.site).1 with
      | error e => simp
      | ok k =>
        by_cases hn : c.noop
        · simp [if_pos hn]
        · simp [if_neg hn, WorkflowCtx.registerRollback]
  · rw [if_neg hs]

lemma uploadSiteStage_rollbackFunctions (c : WorkflowCtx) (env : UploadStepEnv) :
    (uploadSiteStage c env).2.1.rollbackFunctions
      = c.rollbackFunctions ++ siteRollbackDelta c env := by
  rw [uploadSiteStage, siteRollbackDelta]
  by_cases hs : c.s3SitePresent
  · rw [if_pos hs, if_pos hs]
    cases hz : siteZipStageError env with
    | some e => simp
    | none =>
      simp only []
      cases hr : (uploadLocalFileToS3 env.siteZip.tmpFileName c.s3Bucket
          c.serviceName c.noop env.site).1 with
      | error e => simp
      | ok k =>
        by_cases hn : c.noop
        · simp [if_pos hn]
        · simp [if_neg hn, WorkflowCtx.registerRollback]
  · rw [if_neg hs, if_neg hs]
    simp

lemma ensureExpirationPolicy_events (b : String) (env : S3CallEnv)
    (o : Option String) (evts : List S3Event)
    (h : ensureExpirationPolicy b false env = (o, evts)) :
    evts = [S3Event.getLifecycle b] := by
  rw [ensureExpirationPolicy, if_neg (by simp)] at h
  split at h
  · split at h <;> (simp only [Prod.mk.injEq] at h; exact h.2.symm)
  · simp only [Prod.mk.injEq] at h
    exact h.2.symm

/-! ## Claim C9 -/

/-- C9: name derivation is idempotent within a run.  For every `LambdaAWSInfo`
whose first `lambdaFunctionName()` call returns a name (updating the cache), a
repeated call on the updated value returns the identical string and leaves the
value unchanged; and for every `IAMRoleDefinition`, a repeated `logicalName`
call returns exactly what the first call returned. -/
theorem claim_C9_name_derivation_idempotent :
    (∀ (info info2 : LambdaAWSInfo) (n : String),
        info.lambdaFunctionName = some (n, info2) →
        info2.lambdaFunctionName = some (n, info2)) ∧
    (∀ (rd : IAMRoleDefinition) (serviceName targetLambdaFnName : String),
        ((rd.logicalName serviceName targetLambdaFnName).2.logicalName
            serviceName targetLambdaFnName)
          = rd.logicalName serviceName targetLambdaFnName) := by
  constructor
  · intro info info2 n h
    rw [LambdaAWSInfo.lambdaFunctionName] at h
    by_cases hc : info.cachedLambdaFunctionName ≠ ""
    · rw [if_pos hc] at h
      simp only [Option.some.injEq, Prod.mk.injEq] at h
      obtain ⟨hn, hinfo⟩ := h
      subst hinfo
      rw [LambdaAWSInfo.lambdaFunctionName, if_pos hc, hn]
    · rw [if_neg hc] at h
      cases hcomp : computeLambdaFunctionName info with
      | none => rw [hcomp] at h; exact absurd h (by simp)
      | some m =>
        rw [hcomp] at h
        simp only [Option.some.injEq, Prod.mk.injEq] at h
        obtain ⟨hn, hinfo⟩ := h
        subst hn
        subst hinfo
        by_cases hm : m = ""
        · subst hm
          have hce : info.cachedLambdaFunctionName = "" := not_not.mp hc
          have heq : ({ info with cachedLambdaFunctionName := "" } : LambdaAWSInfo)
              = info := by rw [← hce]
          rw [heq, LambdaAWSInfo.lambdaFunctionName, if_neg hc, hcomp]
          simp [heq]
        · rw [LambdaAWSInfo.lambdaFunctionName, if_pos (by simpa using hm)]
  · intro rd serviceName targetLambdaFnName
    by_cases hc : rd.cachedLogicalName = ""
    · have hn := cloudFormationResourceName_iamRole_ne_empty
        [serviceName, targetLambdaFnName]
      simp [IAMRoleDefinition.logicalName, hc, hn]
    · simp [IAMRoleDefinition.logicalName, hc]

/-- Witness for C9 at a concrete input: a lambda named by its handler
reflection and a fresh role definition. -/
theorem claim_C9_name_derivation_idempotent_witness :
    ({ userSuppliedFunctionName := "main.hello",
       cachedLambdaFunctionName := "main_hello" } : LambdaAWSInfo).lambdaFunctionName
      = some ("main_hello",
        { userSuppliedFunctionName := "main.hello",
          cachedLambdaFunctionName := "main_hello" }) :=
  claim_C9_name_derivation_idempotent.1
    { userSuppliedFunctionName := "main.hello" }
    { userSuppliedFunctionName := "main.hello", cachedLambdaFunctionName := "main_hello" }
    "main_hello" (by rfl)

/-! ## Claim C10 -/

/-- C10: `NewAuthorizedMethod` writes the supplied authorization type only on
the branch where `NewMethod` returned an error, where the returned method
pointer is nil and the write panics; on every successful call the returned
method keeps authorization type `"NONE"` regardless of the argument. -/
theorem claim_C10_new_authorized_method :
    (∀ (resource : Resource) (httpMethod authorizationType e : String),
        resource.NewMethod httpMethod = .error e →
        resource.NewAuthorizedMethod httpMethod authorizationType = .panicked) ∧
    (∀ (resource resource2 : Resource) (httpMethod authorizationType : String)
        (m : Method),
        resource.NewMethod httpMethod = .ok (resource2, m) →
        resource.NewAuthorizedMethod httpMethod authorizationType = .ok (resource2, m)
          ∧ m.authorizationType = "NONE") := by
  constructor
  · intro r httpMethod _authType e h
    rw [Resource.NewAuthorizedMethod, h]
  · intro r r2 httpMethod authorizationType m h
    refine ⟨by rw [Resource.NewAuthorizedMethod, h], ?_⟩
    rw [Resource.NewMethod] at h
    split at h
    · exact absurd h (by simp)
    · simp only [Except.ok.injEq, Prod.mk.injEq] at h
      rw [← h.2]

/-- The method that `NewMethod "GET"` creates on an empty resource. -/
def c10Method : Method := { authorizationType := "NONE", httpMethod := "GET" }

/-- A resource on which `"GET"` is already defined. -/
def c10Resource : Resource := { methods := [("GET", c10Method)] }

/-- Witness for C10 at concrete inputs: an empty resource succeeds with
authorization `"NONE"`; re-adding `"GET"` makes `NewMethod` error and the
authorized variant panic. -/
theorem claim_C10_new_authorized_method_witness :
    (({} : Resource).NewAuthorizedMethod "GET" "AWS_IAM" = .ok (c10Resource, c10Method)
      ∧ c10Method.authorizationType = "NONE")
    ∧ c10Resource.NewAuthorizedMethod "GET" "AWS_IAM" = .panicked :=
  ⟨claim_C10_new_authorized_method.2 {} c10Resource "GET" "AWS_IAM" c10Method (by rfl),
   claim_C10_new_authorized_method.1 c10Resource "GET" "AWS_IAM"
      "Method GET (Auth: NONE) already defined for resource" (by rfl)⟩

/-! ## Claim C1 -/

/-- Input for the aggregate-error claim: a service with an S3 site, where the
primary upload and the site upload both fail. -/
def c1Ctx : WorkflowCtx :=
  { noop := false, serviceName := "svc", s3Bucket := "b", s3SitePresent := true }

/-- Oracles making both concurrent uploads fail with distinct errors. -/
def c1Env : UploadStepEnv :=
  { primary := { uploadErr := some "primary upload failed" },
    siteZip := { tmpFileName := "svc-S3Site123" },
    site := { uploadErr := some "site upload failed" } }

/-- C1 (code bug): with two collected upload errors, the step does fail, but
the loop that was meant to aggregate them returns from inside its first
iteration, so the reported message repeats the header and lists only the
first collected error — the site failure that was also collected is absent
from the message. -/
theorem claim_C1_upload_aggregate_error_drops_errors :
    (createUploadStepRun "pkg123.zip" c1Ctx c1Env).1.2.2
        = some ("Encountered multiple errors during upload:\nEncountered multiple errors during upload:\nprimary upload failed\n")
    ∧ (uploadLocalFileToS3 c1Env.siteZip.tmpFileName c1Ctx.s3Bucket c1Ctx.serviceName
        c1Ctx.noop c1Env.site).1 = .error "site upload failed"
    ∧ containsSub "Encountered multiple errors during upload:\nEncountered multiple errors during upload:\nprimary upload failed\n"
        "site upload failed" = false := by
  refine ⟨by rfl, by rfl, by rfl⟩

/-! ## Claim C7 -/

/-- C7: under noop, `uploadLocalFileToS3` performs no object-storage call and
still returns `path.Join(S3KeyPrefix, filepath.Base(localPath))`; in every
mode a successful call returns that same key; the upload step stores the
primary upload's returned key (whose key prefix is the service name) in the
context, so the primary archive is uploaded under
`<serviceName>/<archive basename>`. -/
theorem claim_C7_upload_key_shape :
    (∀ (localPath S3Bucket S3KeyPrefix : String) (env : S3CallEnv),
        uploadLocalFileToS3 localPath S3Bucket S3KeyPrefix true env
          = (.ok (goPathJoin S3KeyPrefix (goFilepathBase localPath)), [])) ∧
    (∀ (localPath S3Bucket S3KeyPrefix : String) (noop : Bool) (env : S3CallEnv)
        (k : String) (evts : List S3Event),
        uploadLocalFileToS3 localPath S3Bucket S3KeyPrefix noop env = (.ok k, evts) →
        k = goPathJoin S3KeyPrefix (goFilepathBase localPath)) ∧
    (∀ (packagePath : String) (ctx : WorkflowCtx) (env : UploadStepEnv),
        (createUploadStepRun packagePath ctx env).1.1.s3LambdaZipKey
          = keyOf (uploadLocalFileToS3 packagePath ctx.s3Bucket ctx.serviceName
              ctx.noop env.primary).1) ∧
    (∀ (localPath S3Bucket S3KeyPrefix : String) (env : S3CallEnv)
        (k : String) (evts : List S3Event),
        uploadLocalFileToS3 localPath S3Bucket S3KeyPrefix false env = (.ok k, evts) →
        evts = [.getLifecycle S3Bucket, .uploadFile localPath S3Bucket S3KeyPrefix]) := by
  refine ⟨?_, ?_, ?_, ?_⟩
  · intro localPath S3Bucket S3KeyPrefix env
    rfl
  · intro localPath S3Bucket S3KeyPrefix noop env k evts h
    simp only [uploadLocalFileToS3] at h
    split at h
    · simp at h
    · split at h
      · simp only [Prod.mk.injEq, Except.ok.injEq] at h
        exact h.1.symm
      · split at h
        · simp at h
        · simp only [Prod.mk.injEq, Except.ok.injEq] at h
          exact h.1.symm
  · intro packagePath ctx env
    simp only [createUploadStepRun]
    split <;>
      rw [uploadSiteStage_s3LambdaZipKey, uploadPrimaryCtx_s3LambdaZipKey]
  · intro localPath S3Bucket S3KeyPrefix env k evts h
    simp only [uploadLocalFileToS3] at h
    split at h
    · simp at h
    · rename_i evts0 heq
      have hev := ensureExpirationPolicy_events S3Bucket env _ _ heq
      rw [if_neg (by simp)] at h
      split at h
      · simp at h
      · simp only [Prod.mk.injEq, Except.ok.injEq] at h
        rw [← h.2, hev]
        rfl

/-- Witness for C7 at a concrete input. -/
theorem claim_C7_upload_key_shape_witness :
    uploadLocalFileToS3 "x/archive.zip" "b" "myService" true {}
        = (.ok (goPathJoin "myService" (goFilepathBase "x/archive.zip")), [])
    ∧ "myService/archive.zip" = goPathJoin "myService" (goFilepathBase "x/archive.zip")
    ∧ [S3Event.getLifecycle "b", S3Event.uploadFile "x/archive.zip" "b" "myService"]
        = [S3Event.getLifecycle "b", S3Event.uploadFile "x/archive.zip" "b" "myService"] :=
  ⟨claim_C7_upload_key_shape.1 "x/archive.zip" "b" "myService" {},
   claim_C7_upload_key_shape.2.1 "x/archive.zip" "b" "myService" false {}
     "myService/archive.zip"
     [S3Event.getLifecycle "b", S3Event.uploadFile "x/archive.zip" "b" "myService"]
     (by rfl),
   (claim_C7_upload_key_shape.2.2.2 "x/archive.zip" "b" "myService" {}
     "myService/archive.zip"
     [S3Event.getLifecycle "b", S3Event.uploadFile "x/archive.zip" "b" "myService"]
     (by rfl)).symm ▸ rfl⟩

/-! ## Claim C8 -/

lemma contains_eq_false_iff (l : List String) (x : String) :
    l.contains x = false ↔ x ∉ l := by
  constructor
  · intro h hx
    have hm := List.elem_iff.mpr hx
    rw [List.contains] at h
    rw [hm] at h
    cases h
  · intro h
    by_contra hb
    have hc : l.contains x = true := by
      cases hc : l.contains x
      · exact absurd hc hb
      · rfl
    exact h (List.elem_iff.mp hc)

lemma contains_cons (a : String) (as : List String) (x : String) :
    (a :: as).contains x = (x == a || as.contains x) := by
  cases h : x == a <;> simp [List.contains, List.elem, h]

/-- The pairs the custom-resource loop registers. -/
def customPairs (cs : List CustomResourceInfo) : List (String × String) :=
  cs.map (fun c => (c.jsHandler, c.userFunctionName))

lemma firstWinsPairsFrom_append (seen : List String) (xs ys : List (String × String)) :
    firstWinsPairsFrom seen (xs ++ ys)
      = firstWinsPairsFrom seen xs ++ firstWinsPairsFrom (seenAfter seen xs) ys := by
  induction xs generalizing seen with
  | nil => rfl
  | cons p rest ih =>
    simp only [List.cons_append, firstWinsPairsFrom, seenAfter]
    by_cases h : seen.contains p.1
    · rw [if_pos h, if_pos h, if_pos h]
      exact ih seen
    · rw [if_neg h, if_neg h, if_neg h]
      simp [ih]

lemma shimCustomEntries_eq (seen : List String) (cs : List CustomResourceInfo) :
    shimCustomEntries seen cs
      = (seenAfter seen (customPairs cs), firstWinsPairsFrom seen (customPairs cs)) := by
  induction cs generalizing seen with
  | nil => rfl
  | cons c rest ih =>
    simp only [shimCustomEntries, customPairs, List.map_cons, seenAfter,
      firstWinsPairsFrom]
    by_cases h : seen.contains c.jsHandler
    · rw [if_pos h, if_pos h, if_pos h]
      exact ih seen
    · rw [if_neg h, if_neg h, if_neg h]
      simp [ih, customPairs]

lemma shimUserEntriesFrom_eq (seen : List String) (l : List LambdaAWSInfo) :
    shimUserEntriesFrom seen l = firstWinsPairsFrom seen (shimPairs l) := by
  induction l generalizing seen with
  | nil => rfl
  | cons info rest ih =>
    have hsplit : shimPairs (info :: rest)
        = ((info.jsHandler, info.cachedLambdaFunctionName)
            :: customPairs info.customResources) ++ shimPairs rest := by
      simp [shimPairs, customPairs]
    rw [hsplit, firstWinsPairsFrom_append]
    by_cases h : seen.contains info.jsHandler
    · rw [shimUserEntriesFrom, if_pos h, shimCustomEntries_eq]
      have h1 : firstWinsPairsFrom seen
          ((info.jsHandler, info.cachedLambdaFunctionName)
            :: customPairs info.customResources)
          = firstWinsPairsFrom seen (customPairs info.customResources) := by
        rw [firstWinsPairsFrom, if_pos h]
      have h2 : seenAfter seen
          ((info.jsHandler, info.cachedLambdaFunctionName)
            :: customPairs info.customResources)
          = seenAfter seen (customPairs info.customResources) := by
        rw [seenAfter, if_pos h]
      rw [h1, h2]
      simp [ih]
    · rw [shimUserEntriesFrom, if_neg h, shimCustomEntries_eq]
      have h1 : firstWinsPairsFrom seen
          ((info.jsHandler, info.cachedLambdaFunctionName)
            :: customPairs info.customResources)
          = (info.jsHandler, info.cachedLambdaFunctionName)
            :: firstWinsPairsFrom (info.jsHandler :: seen)
                (customPairs info.customResources) := by
        rw [firstWinsPairsFrom, if_neg h]
      have h2 : seenAfter seen
          ((info.jsHandler, info.cachedLambdaFunctionName)
            :: customPairs info.customResources)
          = seenAfter (info.jsHandler :: seen) (customPairs info.customResources) := by
        rw [seenAfter, if_neg h]
      rw [h1, h2]
      simp [ih]

lemma firstWinsPairsFrom_map_fst (seen : List String) (ps : List (String × String)) :
    (firstWinsPairsFrom seen ps).map Prod.fst
      = firstWinsFrom seen (ps.map Prod.fst) := by
  induction ps generalizing seen with
  | nil => rfl
  | cons p rest ih =>
    simp only [firstWinsPairsFrom, firstWinsFrom, List.map_cons]
    by_cases h : seen.contains p.1
    · rw [if_pos h, if_pos h]
      exact ih seen
    · rw [if_neg h, if_neg h]
      simp [ih]

lemma mem_firstWinsFrom (seen l : List String) (x : String) :
    x ∈ firstWinsFrom seen l ↔ x ∈ l ∧ seen.contains x = false := by
  induction l generalizing seen with
  | nil => simp [firstWinsFrom]
  | cons n rest ih =>
    rw [firstWinsFrom]
    by_cases h : seen.contains n
    · rw [if_pos h, ih]
      constructor
      · rintro ⟨hx, hc⟩
        exact ⟨List.mem_cons_of_mem _ hx, hc⟩
      · rintro ⟨hx, hc⟩
        rcases List.mem_cons.mp hx with rfl | hx2
        · rw [h] at hc
          cases hc
        · exact ⟨hx2, hc⟩
    · rw [if_neg h]
      simp only [List.mem_cons, ih, contains_cons]
      constructor
      · rintro (rfl | ⟨hx, hc⟩)
        · refine ⟨Or.inl rfl, ?_⟩
          cases hcx : seen.contains x
          · rfl
          · exact absurd hcx h
        · rw [Bool.or_eq_false_iff] at hc
          exact ⟨Or.inr hx, hc.2⟩
      · rintro ⟨hmem, hc⟩
        by_cases hxn : x = n
        · exact Or.inl hxn
        · rcases hmem with rfl | hx
          · exact absurd rfl hxn
          · refine Or.inr ⟨hx, ?_⟩
            rw [Bool.or_eq_false_iff]
            exact ⟨by simp [hxn], hc⟩

lemma firstWinsFrom_nodup (seen l : List String) :
    (firstWinsFrom seen l).Nodup := by
  induction l generalizing seen with
  | nil => exact List.nodup_nil
  | cons n rest ih =>
    rw [firstWinsFrom]
    by_cases h : seen.contains n
    · rw [if_pos h]
      exact ih seen
    · rw [if_neg h]
      refine List.Nodup.cons ?_ (ih (n :: seen))
      intro hmem
      have hc := ((mem_firstWinsFrom (n :: seen) rest n).mp hmem).2
      rw [contains_cons] at hc
      simp at hc

lemma firstWinsPairsFrom_find (seen : List String) (ps : List (String × String)) :
    ∀ p ∈ firstWinsPairsFrom seen ps,
      seen.contains p.1 = false ∧ ps.find? (fun q => q.1 == p.1) = some p := by
  induction ps generalizing seen with
  | nil => intro p hp; cases hp
  | cons q rest ih =>
    intro p hp
    rw [firstWinsPairsFrom] at hp
    by_cases h : seen.contains q.1
    · rw [if_pos h] at hp
      obtain ⟨hc, hfind⟩ := ih seen p hp
      refine ⟨hc, ?_⟩
      have hne : (q.1 == p.1) = false := by
        by_cases hq : q.1 = p.1
        · rw [hq] at h
          rw [h] at hc
          cases hc
        · simp [hq]
      simp only [List.find?, hne]
      exact hfind
    · rw [if_neg h] at hp
      rcases List.mem_cons.mp hp with rfl | hp2
      · refine ⟨by rwa [Bool.not_eq_true] at h, ?_⟩
        simp [List.find?]
      · obtain ⟨hc, hfind⟩ := ih (q.1 :: seen) p hp2
        rw [contains_cons, Bool.or_eq_false_iff] at hc
        refine ⟨hc.2, ?_⟩
        have hne : (q.1 == p.1) = false := by
          have hpq := hc.1
          by_cases hq : q.1 = p.1
          · rw [hq] at hpq
            simp at hpq
          · simp [hq]
        simp only [List.find?, hne]
        exact hfind

/-- C8: the generated dispatch shim contains exactly one exported forwarding
entry per distinct handler identifier among the lambda functions and their
custom resources — the registration loop keeps the first registration of every
identifier (witnessed by `find?` returning exactly the kept entry), the
emitted identifiers are duplicate-free, every registered identifier is
emitted, each emitted once — plus one entry for each of the fixed built-in
custom resource types. -/
theorem claim_C8_shim_single_entry_per_identifier :
    ∀ (lambdas : List LambdaAWSInfo),
      shimUserEntries lambdas = firstWinsPairs (shimPairs lambdas)
      ∧ ((shimUserEntries lambdas).map Prod.fst).Nodup
      ∧ (∀ handlerId, handlerId ∈ (shimPairs lambdas).map Prod.fst
            ↔ handlerId ∈ (shimUserEntries lambdas).map Prod.fst)
      ∧ (∀ p ∈ shimUserEntries lambdas,
            (shimPairs lambdas).find? (fun q => q.1 == p.1) = some p)
      ∧ (∀ handlerId, handlerId ∈ (shimPairs lambdas).map Prod.fst →
            ((shimUserEntries lambdas).map Prod.fst).count handlerId = 1)
      ∧ shimBuiltinEntries.map Prod.snd = golangCustomResourceTypes := by
  intro lambdas
  have he : shimUserEntries lambdas = firstWinsPairs (shimPairs lambdas) :=
    shimUserEntriesFrom_eq [] lambdas
  have hfst : (shimUserEntries lambdas).map Prod.fst
      = firstWinsFrom [] ((shimPairs lambdas).map Prod.fst) := by
    rw [he, firstWinsPairs, firstWinsPairsFrom_map_fst]
  refine ⟨he, ?_, ?_, ?_, ?_, by rfl⟩
  · rw [hfst]
    exact firstWinsFrom_nodup [] _
  · intro handlerId
    rw [hfst, mem_firstWinsFrom]
    exact ⟨fun h => ⟨h, rfl⟩, fun h => h.1⟩
  · intro p hp
    rw [he] at hp
    exact (firstWinsPairsFrom_find [] (shimPairs lambdas) p hp).2
  · intro handlerId hmem
    rw [hfst]
    refine List.count_eq_one_of_mem (firstWinsFrom_nodup [] _) ?_
    rw [mem_firstWinsFrom]
    exact ⟨hmem, rfl⟩

/-- Two lambdas sharing the handler identifier `h1`, whose custom resources
share `hc`, plus a fresh identifier `h2`. -/
def c8Lambdas : List LambdaAWSInfo :=
  [{ jsHandler := "h1", cachedLambdaFunctionName := "f1",
     customResources := [{ jsHandler := "hc", userFunctionName := "c1" }] },
   { jsHandler := "h1", cachedLambdaFunctionName := "f2",
     customResources := [{ jsHandler := "hc", userFunctionName := "c2" },
                         { jsHandler := "h2", userFunctionName := "c3" }] }]

/-- Witness for C8 at a concrete input with duplicated identifiers. -/
theorem claim_C8_shim_single_entry_per_identifier_witness :
    ("h1" ∈ (shimUserEntries c8Lambdas).map Prod.fst)
    ∧ (shimPairs c8Lambdas).find? (fun q => q.1 == "h1") = some ("h1", "f1")
    ∧ ((shimUserEntries c8Lambdas).map Prod.fst).count "h1" = 1 :=
  ⟨((claim_C8_shim_single_entry_per_identifier c8Lambdas).2.2.1 "h1").mp (by decide),
   (claim_C8_shim_single_entry_per_identifier c8Lambdas).2.2.2.1 ("h1", "f1") (by decide),
   (claim_C8_shim_single_entry_per_identifier c8Lambdas).2.2.2.2.1 "h1" (by decide)⟩

/-! ## Claim C2 -/

lemma runWorkflow_succ_err {σ ι : Type} (prog : ι → σ → σ × Option ι × Option String)
    (rollbackOf : σ → List RollbackAction) (out : RollbackAction → Option String)
    (fuel : Nat) (id0 : ι) (st : σ) (e : String)
    (h : (prog id0 st).2.2 = some e) :
    runWorkflow prog rollbackOf out (fuel + 1) id0 st
      = some ((prog id0 st).1,
          [.stepReturned id0 (some e),
           .rollbackRun (rollbackOf (prog id0 st).1)
             ((rollbackOf (prog id0 st).1).filterMap out)], some e) := by
  rw [runWorkflow]
  simp only [h, workflowRollback]

lemma runWorkflow_succ_done {σ ι : Type} (prog : ι → σ → σ × Option ι × Option String)
    (rollbackOf : σ → List RollbackAction) (out : RollbackAction → Option String)
    (fuel : Nat) (id0 : ι) (st : σ)
    (h2 : (prog id0 st).2.2 = none) (h1 : (prog id0 st).2.1 = none) :
    runWorkflow prog rollbackOf out (fuel + 1) id0 st
      = some ((prog id0 st).1, [.stepReturned id0 none], none) := by
  rw [runWorkflow]
  simp only [h1, h2]

lemma runWorkflow_succ_next {σ ι : Type} (prog : ι → σ → σ × Option ι × Option String)
    (rollbackOf : σ → List RollbackAction) (out : RollbackAction → Option String)
    (fuel : Nat) (id0 : ι) (st : σ) (nextId : ι)
    (h2 : (prog id0 st).2.2 = none) (h1 : (prog id0 st).2.1 = some nextId) :
    runWorkflow prog rollbackOf out (fuel + 1) id0 st
      = (runWorkflow prog rollbackOf out fuel nextId (prog id0 st).1).map
          (fun r => (r.1, .stepReturned id0 none :: r.2.1, r.2.2)) := by
  rw [runWorkflow]
  simp only [h1, h2]
  cases hrec : runWorkflow prog rollbackOf out fuel nextId (prog id0 st).1 with
  | none => rfl
  | some r =>
    rcases r with ⟨a, b, c⟩
    rfl

lemma rollbackRunCount_cons_step {ι : Type} (i : ι) (r : Option String)
    (l : List (WEvent ι)) :
    rollbackRunCount (WEvent.stepReturned i r :: l) = rollbackRunCount l := by
  simp [rollbackRunCount, List.countP_cons]

lemma stepErrorsOf_cons_step {ι : Type} (i : ι) (r : Option String)
    (l : List (WEvent ι)) :
    stepErrorsOf (WEvent.stepReturned i r :: l) = r :: stepErrorsOf l := by
  simp [stepErrorsOf]

lemma runWorkflow_err_decomp {σ ι : Type} (prog : ι → σ → σ × Option ι × Option String)
    (rollbackOf : σ → List RollbackAction) (out : RollbackAction → Option String) :
    ∀ (fuel : Nat) (id0 : ι) (st st2 : σ) (evts : List (WEvent ι)) (e : String),
      runWorkflow prog rollbackOf out fuel id0 st = some (st2, evts, some e) →
      ∃ pre i, evts = pre ++ [WEvent.stepReturned i (some e),
            WEvent.rollbackRun (rollbackOf st2) ((rollbackOf st2).filterMap out)]
        ∧ rollbackRunCount pre = 0
        ∧ (∀ r ∈ stepErrorsOf pre, r = none) := by
  intro fuel
  induction fuel with
  | zero =>
    intro id0 st st2 evts e h
    exact absurd h (by rw [runWorkflow]; simp)
  | succ n ih =>
    intro id0 st st2 evts e h
    cases he : (prog id0 st).2.2 with
    | some e0 =>
      rw [runWorkflow_succ_err prog rollbackOf out n id0 st e0 he] at h
      simp only [Option.some.injEq, Prod.mk.injEq] at h
      obtain ⟨h1, h2, h3⟩ := h
      subst h1
      subst h2
      subst h3
      exact ⟨[], id0, by simp, by simp [rollbackRunCount], by simp [stepErrorsOf]⟩
    | none =>
      cases hn : (prog id0 st).2.1 with
      | none =>
        rw [runWorkflow_succ_done prog rollbackOf out n id0 st he hn] at h
        simp at h
      | some nid =>
        rw [runWorkflow_succ_next prog rollbackOf out n id0 st nid he hn] at h
        cases hrec : runWorkflow prog rollbackOf out n nid (prog id0 st).1 with
        | none =>
          rw [hrec] at h
          simp at h
        | some r =>
          rcases r with ⟨st3, evts3, res3⟩
          rw [hrec] at h
          simp only [Option.map_some', Option.some.injEq, Prod.mk.injEq] at h
          obtain ⟨h1, h2, h3⟩ := h
          obtain ⟨pre, i, hdec, hc, hall⟩ := ih nid (prog id0 st).1 st3 evts3 e
            (by rw [hrec, h3])
          rw [h1] at hdec
          refine ⟨WEvent.stepReturned id0 none :: pre, i, ?_, ?_, ?_⟩
          · rw [← h2, hdec]
            simp
          · rw [rollbackRunCount_cons_step]
            exact hc
          · rw [stepErrorsOf_cons_step]
            intro r hr
            rcases List.mem_cons.mp hr with rfl | hr2
            · rfl
            · exact hall r hr2

lemma runWorkflow_ok_no_rollback {σ ι : Type}
    (prog : ι → σ → σ × Option ι × Option String)
    (rollbackOf : σ → List RollbackAction) (out : RollbackAction → Option String) :
    ∀ (fuel : Nat) (id0 : ι) (st st2 : σ) (evts : List (WEvent ι)),
      runWorkflow prog rollbackOf out fuel id0 st = some (st2, evts, none) →
      rollbackRunCount evts = 0 := by
  intro fuel
  induction fuel with
  | zero =>
    intro id0 st st2 evts h
    exact absurd h (by rw [runWorkflow]; simp)
  | succ n ih =>
    intro id0 st st2 evts h
    cases he : (prog id0 st).2.2 with
    | some e0 =>
      rw [runWorkflow_succ_err prog rollbackOf out n id0 st e0 he] at h
      simp at h
    | none =>
      cases hn : (prog id0 st).2.1 with
      | none =>
        rw [runWorkflow_succ_done prog rollbackOf out n id0 st he hn] at h
        simp only [Option.some.injEq, Prod.mk.injEq] at h
        rw [← h.2.1]
        simp [rollbackRunCount]
      | some nid =>
        rw [runWorkflow_succ_next prog rollbackOf out n id0 st nid he hn] at h
        cases hrec : runWorkflow prog rollbackOf out n nid (prog id0 st).1 with
        | none =>
          rw [hrec] at h
          simp at h
        | some r =>
          rcases r with ⟨st3, evts3, res3⟩
          rw [hrec] at h
          simp only [Option.map_some', Option.some.injEq, Prod.mk.injEq] at h
          obtain ⟨h1, h2, h3⟩ := h
          subst h2
          rw [rollbackRunCount_cons_step]
          exact ih nid (prog id0 st).1 st3 evts3 (by rw [hrec, h3])

lemma runWorkflow_outcome_independent {σ ι : Type}
    (prog : ι → σ → σ × Option ι × Option String)
    (rollbackOf : σ → List RollbackAction)
    (out1 out2 : RollbackAction → Option String) :
    ∀ (fuel : Nat) (id0 : ι) (st : σ),
      (runWorkflow prog rollbackOf out1 fuel id0 st).map (fun r => (r.1, r.2.2))
        = (runWorkflow prog rollbackOf out2 fuel id0 st).map (fun r => (r.1, r.2.2)) := by
  intro fuel
  induction fuel with
  | zero =>
    intro id0 st
    rw [runWorkflow, runWorkflow]
  | succ n ih =>
    intro id0 st
    cases he : (prog id0 st).2.2 with
    | some e0 =>
      rw [runWorkflow_succ_err prog rollbackOf out1 n id0 st e0 he,
        runWorkflow_succ_err prog rollbackOf out2 n id0 st e0 he]
      rfl
    | none =>
      cases hn : (prog id0 st).2.1 with
      | none =>
        rw [runWorkflow_succ_done prog rollbackOf out1 n id0 st he hn,
          runWorkflow_succ_done prog rollbackOf out2 n id0 st he hn]
      | some nid =>
        rw [runWorkflow_succ_next prog rollbackOf out1 n id0 st nid he hn,
          runWorkflow_succ_next prog rollbackOf out2 n id0 st nid he hn]
        have hih := ih nid (prog id0 st).1
        cases h1 : runWorkflow prog rollbackOf out1 n nid (prog id0 st).1 with
        | none =>
          rw [h1] at hih
          cases h2 : runWorkflow prog rollbackOf out2 n nid (prog id0 st).1 with
          | none => rfl
          | some r2 =>
            rw [h2] at hih
            simp at hih
        | some r1 =>
          rw [h1] at hih
          cases h2 : runWorkflow prog rollbackOf out2 n nid (prog id0 st).1 with
          | none =>
            rw [h2] at hih
            simp at hih
          | some r2 =>
            rw [h2] at hih
            rcases r1 with ⟨a1, b1, c1⟩
            rcases r2 with ⟨a2, b2, c2⟩
            simp only [Option.map_some', Option.some.injEq, Prod.mk.injEq] at hih ⊢
            exact ⟨hih.1, hih.2⟩

lemma rollbackRunCount_append {ι : Type} (a b : List (WEvent ι)) :
    rollbackRunCount (a ++ b) = rollbackRunCount a + rollbackRunCount b := by
  simp [rollbackRunCount, List.countP_append]

lemma stepErrorsOf_append {ι : Type} (a b : List (WEvent ι)) :
    stepErrorsOf (a ++ b) = stepErrorsOf a ++ stepErrorsOf b := by
  simp [stepErrorsOf]

/-- C2: in every run of the workflow chain, a step returning a non-nil error
makes the driver invoke rollback exactly once and return that step's original
error; rollback-action failures only change the logged warnings, never the
final state or the returned error; a step returning `(nil, nil)` terminates
the chain successfully (and successful runs never invoke rollback); otherwise
the returned step becomes the current step; and `Provision` surfaces exactly
the driver behaviour — an error return either precedes the chain (empty
trace) or carries exactly one rollback invocation and the failing step's
error. -/
theorem claim_C2_step_error_rollback_once :
    (∀ (σ ι : Type) (prog : ι → σ → σ × Option ι × Option String)
        (rollbackOf : σ → List RollbackAction) (out : RollbackAction → Option String)
        (fuel : Nat) (id0 : ι) (st st2 : σ) (evts : List (WEvent ι)) (e : String),
        runWorkflow prog rollbackOf out fuel id0 st = some (st2, evts, some e) →
        rollbackRunCount evts = 1
          ∧ (stepErrorsOf evts).getLast? = some (some e))
    ∧ (∀ (σ ι : Type) (prog : ι → σ → σ × Option ι × Option String)
        (rollbackOf : σ → List RollbackAction)
        (out1 out2 : RollbackAction → Option String) (fuel : Nat) (id0 : ι) (st : σ),
        (runWorkflow prog rollbackOf out1 fuel id0 st).map (fun r => (r.1, r.2.2))
          = (runWorkflow prog rollbackOf out2 fuel id0 st).map (fun r => (r.1, r.2.2)))
    ∧ (∀ (σ ι : Type) (prog : ι → σ → σ × Option ι × Option String)
        (rollbackOf : σ → List RollbackAction) (out : RollbackAction → Option String)
        (fuel : Nat) (id0 : ι) (st st2 : σ),
        prog id0 st = (st2, none, none) →
        runWorkflow prog rollbackOf out (fuel + 1) id0 st
          = some (st2, [WEvent.stepReturned id0 none], none))
    ∧ (∀ (σ ι : Type) (prog : ι → σ → σ × Option ι × Option String)
        (rollbackOf : σ → List RollbackAction) (out : RollbackAction → Option String)
        (fuel : Nat) (id0 : ι) (st st2 : σ) (nextId : ι),
        prog id0 st = (st2, some nextId, none) →
        runWorkflow prog rollbackOf out (fuel + 1) id0 st
          = (runWorkflow prog rollbackOf out fuel nextId st2).map
              (fun r => (r.1, WEvent.stepReturned id0 none :: r.2.1, r.2.2)))
    ∧ (∀ (σ ι : Type) (prog : ι → σ → σ × Option ι × Option String)
        (rollbackOf : σ → List RollbackAction) (out : RollbackAction → Option String)
        (fuel : Nat) (id0 : ι) (st st2 : σ) (evts : List (WEvent ι)),
        runWorkflow prog rollbackOf out fuel id0 st = some (st2, evts, none) →
        rollbackRunCount evts = 0)
    ∧ (∀ (env : ProvEnv) (noop : Bool)
        (sn sd bucket bid btags : String) (lambdas : List LambdaAWSInfo)
        (store : List IAMRoleDefinition) (api site : Bool)
        (hooks : Option WorkflowHooksM) (tw : Bool) (e : String)
        (evts : List (WEvent StepId)),
        Provision env noop sn sd bucket bid btags lambdas store api site hooks tw
          = (.err e, evts) →
        evts = [] ∨ (rollbackRunCount evts = 1
          ∧ (stepErrorsOf evts).getLast? = some (some e))) := by
  have main : ∀ (σ ι : Type) (prog : ι → σ → σ × Option ι × Option String)
      (rollbackOf : σ → List RollbackAction) (out : RollbackAction → Option String)
      (fuel : Nat) (id0 : ι) (st st2 : σ) (evts : List (WEvent ι)) (e : String),
      runWorkflow prog rollbackOf out fuel id0 st = some (st2, evts, some e) →
      rollbackRunCount evts = 1
        ∧ (stepErrorsOf evts).getLast? = some (some e) := by
    intro σ ι prog rollbackOf out fuel id0 st st2 evts e h
    obtain ⟨pre, i, hdec, hc, _⟩ :=
      runWorkflow_err_decomp prog rollbackOf out fuel id0 st st2 evts e h
    constructor
    · rw [hdec, rollbackRunCount_append, hc]
      simp [rollbackRunCount, List.countP_cons]
    · rw [hdec, stepErrorsOf_append]
      have hse : stepErrorsOf [WEvent.stepReturned i (some e),
          WEvent.rollbackRun (rollbackOf st2) ((rollbackOf st2).filterMap out)]
          = [some e] := by simp [stepErrorsOf]
      rw [hse]
      exact List.getLast?_concat _
  refine ⟨main, ?_, ?_, ?_, ?_, ?_⟩
  · intro σ ι prog rollbackOf out1 out2 fuel id0 st
    exact runWorkflow_outcome_independent prog rollbackOf out1 out2 fuel id0 st
  · intro σ ι prog rollbackOf out fuel id0 st st2 h
    have h2 : (prog id0 st).2.2 = none := by rw [h]
    have h1 : (prog id0 st).2.1 = none := by rw [h]
    rw [runWorkflow_succ_done prog rollbackOf out fuel id0 st h2 h1, h]
  · intro σ ι prog rollbackOf out fuel id0 st st2 nextId h
    have h2 : (prog id0 st).2.2 = none := by rw [h]
    have h1 : (prog id0 st).2.1 = some nextId := by rw [h]
    rw [runWorkflow_succ_next prog rollbackOf out fuel id0 st nextId h2 h1, h]
  · intro σ ι prog rollbackOf out fuel id0 st st2 evts h
    exact runWorkflow_ok_no_rollback prog rollbackOf out fuel id0 st st2 evts h
  · intro env noop sn sd bucket bid btags lambdas store api site hooks tw e evts h
    rw [Provision] at h
    cases hv : validateSpartaPreconditions lambdas env.sysinfoInstalled with
    | panicked =>
      rw [hv] at h
      simp at h
    | err m =>
      rw [hv] at h
      simp only [Prod.mk.injEq, GoRes.err.injEq] at h
      exact Or.inl h.2.symm
    | ok lambdas2 =>
      rw [hv] at h
      dsimp only at h
      by_cases hlen : lambdas2.length ≤ 0
      · rw [if_pos hlen] at h
        simp only [Prod.mk.injEq, GoRes.err.injEq] at h
        exact Or.inl h.2.symm
      · rw [if_neg hlen] at h
        cases hrun : runWorkflow (spartaProg env) (fun c => c.rollbackFunctions)
            env.rollbackOutcome 8 StepId.verifyRoles
            (initWorkflowCtx noop sn sd bucket bid btags lambdas2 store api site
              hooks tw) with
        | none =>
          rw [hrun] at h
          simp at h
        | some r =>
          rcases r with ⟨stf, evts0, res⟩
          rw [hrun] at h
          cases res with
          | none => simp at h
          | some e0 =>
            simp only [Prod.mk.injEq, GoRes.err.injEq] at h
            obtain ⟨he, hevts⟩ := h
            right
            rw [← hevts, ← he]
            exact main WorkflowCtx StepId (spartaProg env)
              (fun c => c.rollbackFunctions) env.rollbackOutcome 8
              StepId.verifyRoles _ stf evts0 e0 hrun

/-- A three-step toy chain whose step 1 fails. -/
def c2Prog : Nat → Nat → Nat × Option Nat × Option String
  | 0, st => (st + 1, some 1, none)
  | 1, st => (st + 1, none, some "boom")
  | _ + 2, st => (st, none, none)

/-- A single registered rollback action for the toy chain. -/
def c2RollbackOf : Nat → List RollbackAction := fun _ => [⟨"b", "k"⟩]

/-- Events of the failing run of the toy chain. -/
def c2Events : List (WEvent Nat) :=
  [WEvent.stepReturned 0 none, WEvent.stepReturned 1 (some "boom"),
   WEvent.rollbackRun [⟨"b", "k"⟩] []]

/-- Two lambdas whose derived names collide, for the Provision conjunct. -/
def c2DupLambdas : List LambdaAWSInfo :=
  [{ userSuppliedFunctionName := "main.main" },
   { userSuppliedFunctionName := "main.main" }]

/-- Witness for C2 at concrete inputs: the failing toy run rolls back exactly
once and returns the failing step's error; a terminating step ends the chain;
a successful run has no rollback; an erroring `Provision` before the chain has
an empty trace. -/
theorem claim_C2_step_error_rollback_once_witness :
    (rollbackRunCount c2Events = 1
      ∧ (stepErrorsOf c2Events).getLast? = some (some "boom"))
    ∧ runWorkflow c2Prog c2RollbackOf (fun _ => none) 1 2 0
        = some (0, [WEvent.stepReturned 2 none], none)
    ∧ rollbackRunCount ([WEvent.stepReturned 2 none] : List (WEvent Nat)) = 0
    ∧ (([] : List (WEvent StepId)) = []
        ∨ (rollbackRunCount ([] : List (WEvent StepId)) = 1
          ∧ (stepErrorsOf ([] : List (WEvent StepId))).getLast?
              = some (some "Multiple definitions of lambda: main_main"))) :=
  ⟨claim_C2_step_error_rollback_once.1 Nat Nat c2Prog c2RollbackOf (fun _ => none)
      3 0 5 7 c2Events "boom" (by rfl),
   claim_C2_step_error_rollback_once.2.2.1 Nat Nat c2Prog c2RollbackOf
      (fun _ => none) 0 2 0 0 (by rfl),
   claim_C2_step_error_rollback_once.2.2.2.2.1 Nat Nat c2Prog c2RollbackOf
      (fun _ => none) 1 2 0 0 [WEvent.stepReturned 2 none] (by rfl),
   claim_C2_step_error_rollback_once.2.2.2.2.2 {} false "svc" "" "b" "1" ""
      c2DupLambdas [] false false none false
      "Multiple definitions of lambda: main_main" [] (by rfl)⟩

/-! ## Claim C5 -/

lemma uploadSiteStage_errs_of_fail (c : WorkflowCtx) (env : UploadStepEnv)
    (es : String) (hs : c.s3SitePresent = true) (hz : siteZipStageError env = none)
    (hf : (uploadLocalFileToS3 env.siteZip.tmpFileName c.s3Bucket c.serviceName
        c.noop env.site).1 = .error es) :
    (uploadSiteStage c env).1 = [es] := by
  rw [uploadSiteStage, if_pos hs]
  simp only [hz, hf]

lemma createUploadStep_rollbackFunctions (packagePath : String) (ctx : WorkflowCtx)
    (env : UploadStepEnv) :
    (createUploadStepRun packagePath ctx env).1.1.rollbackFunctions
      = ctx.rollbackFunctions ++ primRollbackDelta packagePath ctx env
          ++ siteRollbackDelta (uploadPrimaryCtx packagePath ctx env) env := by
  rw [createUploadStepRun]
  try dsimp only
  split <;>
    rw [uploadSiteStage_rollbackFunctions, uploadPrimaryCtx_rollbackFunctions]

/-- C5: a compensating rollback action for an upload is appended only after
that upload returned success and never under dry-run (the step's rollback list
is the incoming list plus the primary upload's contribution plus the site
upload's contribution, each present exactly on success outside noop);
registered actions are invoked only when a workflow step fails (successful
chains record no rollback run); and with two concurrent uploads of which the
site upload fails, the succeeding primary upload's compensating action is
still registered and is among the actions invoked during the rollback of the
failing step. -/
theorem claim_C5_rollback_registration_lifecycle :
    (∀ (packagePath : String) (ctx : WorkflowCtx) (env : UploadStepEnv),
        (createUploadStepRun packagePath ctx env).1.1.rollbackFunctions
          = ctx.rollbackFunctions ++ primRollbackDelta packagePath ctx env
              ++ siteRollbackDelta (uploadPrimaryCtx packagePath ctx env) env)
    ∧ (∀ (packagePath : String) (ctx : WorkflowCtx) (env : UploadStepEnv) (k : String),
        (uploadLocalFileToS3 packagePath ctx.s3Bucket ctx.serviceName ctx.noop
          env.primary).1 = .ok k →
        ctx.noop = false →
        primRollbackDelta packagePath ctx env = [⟨ctx.s3Bucket, k⟩])
    ∧ (∀ (packagePath : String) (ctx : WorkflowCtx) (env : UploadStepEnv) (e : String),
        (uploadLocalFileToS3 packagePath ctx.s3Bucket ctx.serviceName ctx.noop
          env.primary).1 = .error e →
        primRollbackDelta packagePath ctx env = [])
    ∧ (∀ (packagePath : String) (ctx : WorkflowCtx) (env : UploadStepEnv),
        ctx.noop = true →
        primRollbackDelta packagePath ctx env = []
          ∧ siteRollbackDelta ctx env = [])
    ∧ (∀ (env : ProvEnv) (fuel : Nat) (id0 : StepId) (ctx st2 : WorkflowCtx)
        (evts : List (WEvent StepId)),
        runWorkflow (spartaProg env) (fun c => c.rollbackFunctions)
            env.rollbackOutcome fuel id0 ctx = some (st2, evts, none) →
        rollbackRunCount evts = 0)
    ∧ (∀ (penv : ProvEnv) (packagePath : String) (ctx : WorkflowCtx)
        (fuel : Nat) (k es : String),
        ctx.s3SitePresent = true → ctx.noop = false →
        (uploadLocalFileToS3 packagePath ctx.s3Bucket ctx.serviceName ctx.noop
          penv.uploadEnv.primary).1 = .ok k →
        siteZipStageError penv.uploadEnv = none →
        (uploadLocalFileToS3 penv.uploadEnv.siteZip.tmpFileName ctx.s3Bucket
          ctx.serviceName ctx.noop penv.uploadEnv.site).1 = .error es →
        ∃ e2 evts st2,
          runWorkflow (spartaProg penv) (fun c => c.rollbackFunctions)
              penv.rollbackOutcome (fuel + 1) (StepId.uploadStep packagePath) ctx
            = some (st2, evts, some e2)
          ∧ WEvent.rollbackRun st2.rollbackFunctions
              (st2.rollbackFunctions.filterMap penv.rollbackOutcome) ∈ evts
          ∧ RollbackAction.mk ctx.s3Bucket k ∈ st2.rollbackFunctions) := by
  refine ⟨createUploadStep_rollbackFunctions, ?_, ?_, ?_, ?_, ?_⟩
  · intro packagePath ctx env k hok hn
    rw [primRollbackDelta, hok, hn]
    rfl
  · intro packagePath ctx env e herr
    rw [primRollbackDelta, herr]
  · intro packagePath ctx env hn
    constructor
    · rw [primRollbackDelta]
      split
      · rfl
      · rw [hn]
        rfl
    · rw [siteRollbackDelta]
      split <;> (try split) <;> (try split) <;> simp [hn]
  · intro env fuel id0 ctx st2 evts h
    exact runWorkflow_ok_no_rollback (spartaProg env) (fun c => c.rollbackFunctions)
      env.rollbackOutcome fuel id0 ctx st2 evts h
  · intro penv packagePath ctx fuel k es hs hn hok hz hsf
    have hfields := uploadPrimaryCtx_fields packagePath ctx penv.uploadEnv
    have hs2 : (uploadPrimaryCtx packagePath ctx penv.uploadEnv).s3SitePresent
        = true := by rw [hfields.2.1]; exact hs
    have hsitefail : (uploadLocalFileToS3 penv.uploadEnv.siteZip.tmpFileName
        (uploadPrimaryCtx packagePath ctx penv.uploadEnv).s3Bucket
        (uploadPrimaryCtx packagePath ctx penv.uploadEnv).serviceName
        (uploadPrimaryCtx packagePath ctx penv.uploadEnv).noop
        penv.uploadEnv.site).1 = .error es := by
      rw [hfields.2.2.1, hfields.2.2.2, hfields.1]
      exact hsf
    have herrs := uploadSiteStage_errs_of_fail
      (uploadPrimaryCtx packagePath ctx penv.uploadEnv) penv.uploadEnv es hs2 hz
      hsitefail
    have hperr : uploadPrimaryErrs packagePath ctx penv.uploadEnv = [] := by
      rw [uploadPrimaryErrs, hok]
    have hstep : (createUploadStepRun packagePath ctx penv.uploadEnv).1
        = ((uploadSiteStage (uploadPrimaryCtx packagePath ctx penv.uploadEnv)
              penv.uploadEnv).2.1,
           none,
           some ("Encountered multiple errors during upload:\n"
             ++ ("Encountered multiple errors during upload:\n" ++ es ++ "\n"))) := by
      rw [createUploadStepRun]
      try dsimp only
      rw [hperr, herrs]
      rfl
    have hprogdef : spartaProg penv (StepId.uploadStep packagePath) ctx
        = (createUploadStepRun packagePath ctx penv.uploadEnv).1 := rfl
    have hperr2 : (spartaProg penv (StepId.uploadStep packagePath) ctx).2.2
        = some ("Encountered multiple errors during upload:\n"
            ++ ("Encountered multiple errors during upload:\n" ++ es ++ "\n")) := by
      rw [hprogdef, hstep]
    have hrun := runWorkflow_succ_err (spartaProg penv)
      (fun c => c.rollbackFunctions) penv.rollbackOutcome fuel
      (StepId.uploadStep packagePath) ctx _ hperr2
    refine ⟨_, _, (spartaProg penv (StepId.uploadStep packagePath) ctx).1, hrun,
      ?_, ?_⟩
    · simp
    · have hrb : (spartaProg penv (StepId.uploadStep packagePath) ctx).1.rollbackFunctions
          = ctx.rollbackFunctions ++ primRollbackDelta packagePath ctx penv.uploadEnv
              ++ siteRollbackDelta (uploadPrimaryCtx packagePath ctx penv.uploadEnv)
                  penv.uploadEnv := by
        rw [hprogdef]
        exact createUploadStep_rollbackFunctions packagePath ctx penv.uploadEnv
      rw [hrb]
      have hpd : primRollbackDelta packagePath ctx penv.uploadEnv
          = [⟨ctx.s3Bucket, k⟩] := by
        rw [primRollbackDelta, hok, hn]
        rfl
      rw [hpd]
      simp

/-- Concrete context for the C5 witness: a service with an S3 site, not in
noop mode. -/
def c5Ctx : WorkflowCtx :=
  { noop := false, serviceName := "svc", s3Bucket := "b", s3SitePresent := true }

/-- Oracles for the C5 witness: the primary upload succeeds and the site
upload fails. -/
def c5Env : ProvEnv :=
  { uploadEnv := { siteZip := { tmpFileName := "site.zip" },
                   site := { uploadErr := some "site upload failed" } } }

/-- Witness for C5 at a concrete input: the primary delta is exactly the
compensating delete of the uploaded archive, and in the failing run the
succeeding upload's action is registered and invoked during rollback. -/
theorem claim_C5_rollback_registration_lifecycle_witness :
    primRollbackDelta "pkg.zip" c5Ctx c5Env.uploadEnv = [⟨"b", "svc/pkg.zip"⟩]
    ∧ (∃ e2 evts st2,
        runWorkflow (spartaProg c5Env) (fun c => c.rollbackFunctions)
            c5Env.rollbackOutcome 1 (StepId.uploadStep "pkg.zip") c5Ctx
          = some (st2, evts, some e2)
        ∧ WEvent.rollbackRun st2.rollbackFunctions
            (st2.rollbackFunctions.filterMap c5Env.rollbackOutcome) ∈ evts
        ∧ RollbackAction.mk c5Ctx.s3Bucket "svc/pkg.zip" ∈ st2.rollbackFunctions) :=
  ⟨by
    have h := claim_C5_rollback_registration_lifecycle.2.1 "pkg.zip" c5Ctx
      c5Env.uploadEnv "svc/pkg.zip" (by rfl) (by rfl)
    exact h,
   claim_C5_rollback_registration_lifecycle.2.2.2.2.2 c5Env "pkg.zip" c5Ctx 0
      "svc/pkg.zip" "site upload failed" (by rfl) (by rfl) (by rfl) (by rfl)
      (by rfl)⟩

/-! ## Claim C6 -/

/-- C6: an invalid handler signature or a duplicate derived function name
makes `Provision` return an error with an empty workflow trace — no step ran,
so no build, upload, converge or rollback happened; and an empty function list
likewise produces an error before the first workflow step. -/
theorem claim_C6_precondition_errors_before_steps :
    (∀ (env : ProvEnv) (noop : Bool) (sn sd bucket bid btags : String)
        (lambdas : List LambdaAWSInfo) (store : List IAMRoleDefinition)
        (api site : Bool) (hooks : Option WorkflowHooksM) (tw : Bool)
        (derived : List (String × LambdaAWSInfo)),
        deriveAllNames lambdas = some derived →
        ((∃ l ∈ lambdas, l.signatureValid = false)
          ∨ ¬(collisionNames derived).Nodup) →
        ∃ m, Provision env noop sn sd bucket bid btags lambdas store api site
            hooks tw = (.err m, []))
    ∧ (∀ (env : ProvEnv) (noop : Bool) (sn sd bucket bid btags : String)
        (store : List IAMRoleDefinition) (api site : Bool)
        (hooks : Option WorkflowHooksM) (tw : Bool),
        ∃ m, Provision env noop sn sd bucket bid btags [] store api site hooks tw
            = (.err m, [])) := by
  constructor
  · intro env noop sn sd bucket bid btags lambdas store api site hooks tw derived
      hder hbad
    have hne : ((lambdas.filter (fun l => !l.signatureValid)).map
          (fun l => "Invalid signature for function: " ++ l.userSuppliedFunctionName)
        ++ ((firstWins (collisionNames derived)).filter
            (fun n => 1 < (collisionNames derived).count n)).map
          (fun n => "Multiple definitions of lambda: " ++ n)) ≠ [] := by
      intro hcontr
      rw [List.append_eq_nil] at hcontr
      rcases hbad with ⟨l, hl, hsig⟩ | hdup
      · have hmem : l ∈ lambdas.filter (fun l => !l.signatureValid) := by
          rw [List.mem_filter]
          refine ⟨hl, ?_⟩
          rw [hsig]
          rfl
        have hmem2 := List.mem_map_of_mem
          (fun l : LambdaAWSInfo =>
            "Invalid signature for function: " ++ l.userSuppliedFunctionName) hmem
        rw [hcontr.1] at hmem2
        cases hmem2
      · obtain ⟨n, hcnt⟩ : ∃ n, 1 < (collisionNames derived).count n := by
          by_contra hno
          push_neg at hno
          exact hdup (List.nodup_iff_count_le_one.mpr hno)
        have hmemall : n ∈ collisionNames derived := by
          by_contra hnm
          rw [List.count_eq_zero_of_not_mem hnm] at hcnt
          omega
        have hmemfw : n ∈ firstWins (collisionNames derived) := by
          rw [firstWins, mem_firstWinsFrom]
          exact ⟨hmemall, rfl⟩
        have hmemfil : n ∈ (firstWins (collisionNames derived)).filter
            (fun n => 1 < (collisionNames derived).count n) := by
          rw [List.mem_filter]
          exact ⟨hmemfw, by simpa using hcnt⟩
        have hmem2 := List.mem_map_of_mem
          (fun n => "Multiple definitions of lambda: " ++ n) hmemfil
        rw [hcontr.2] at hmem2
        cases hmem2
    have hverr : validateSpartaPreconditions lambdas env.sysinfoInstalled
        = .err (String.intercalate "\n"
            ((lambdas.filter (fun l => !l.signatureValid)).map
              (fun l => "Invalid signature for function: "
                ++ l.userSuppliedFunctionName)
            ++ ((firstWins (collisionNames derived)).filter
                (fun n => 1 < (collisionNames derived).count n)).map
              (fun n => "Multiple definitions of lambda: " ++ n))) := by
      rw [validateSpartaPreconditions, hder]
      dsimp only
      rw [if_pos hne]
    refine ⟨String.intercalate "\n"
        ((lambdas.filter (fun l => !l.signatureValid)).map
          (fun l => "Invalid signature for function: " ++ l.userSuppliedFunctionName)
        ++ ((firstWins (collisionNames derived)).filter
            (fun n => 1 < (collisionNames derived).count n)).map
          (fun n => "Multiple definitions of lambda: " ++ n)), ?_⟩
    rw [Provision, hverr]
  · intro env noop sn sd bucket bid btags store api site hooks tw
    have hval : validateSpartaPreconditions [] env.sysinfoInstalled
        = (if env.sysinfoInstalled then .ok []
           else .err "Please run go get -u -v github.com/zcalusic/sysinfo to install this Linux-only package") := by
      rw [validateSpartaPreconditions]
      rfl
    by_cases hsys : env.sysinfoInstalled
    · refine ⟨"No lambda functions provided to Sparta.Provision()", ?_⟩
      rw [Provision, hval, if_pos hsys]
      rfl
    · refine ⟨"Please run go get -u -v github.com/zcalusic/sysinfo to install this Linux-only package", ?_⟩
      rw [Provision, hval, if_neg hsys]

/-- Two lambdas whose derived function names collide on `main_main`. -/
def c6DupLambdas : List LambdaAWSInfo :=
  [{ userSuppliedFunctionName := "main.main" },
   { userSuppliedFunctionName := "main.main" }]

/-- The derivation results of the colliding lambdas. -/
def c6Derived : List (String × LambdaAWSInfo) :=
  [("main_main", { userSuppliedFunctionName := "main.main",
                   cachedLambdaFunctionName := "main_main" }),
   ("main_main", { userSuppliedFunctionName := "main.main",
                   cachedLambdaFunctionName := "main_main" })]

/-- Witness for C6 at concrete inputs: the duplicate-name collision and the
empty function list both error with an empty trace. -/
theorem claim_C6_precondition_errors_before_steps_witness :
    (∃ m, Provision {} false "svc" "" "b" "1" "" c6DupLambdas [] false false none
        false = (.err m, []))
    ∧ (∃ m, Provision {} false "svc" "" "b" "1" "" [] [] false false none false
        = (.err m, [])) :=
  ⟨claim_C6_precondition_errors_before_steps.1 {} false "svc" "" "b" "1" ""
      c6DupLambdas [] false false none false c6Derived (by rfl)
      (Or.inr (by decide)),
   claim_C6_precondition_errors_before_steps.2 {} false "svc" "" "b" "1" "" []
      false false none false⟩

/-! ## Claim C4 -/

/-- Context for the C4 counterexample: a noop service with an S3 site. -/
def c4Ctx : WorkflowCtx :=
  { noop := true, serviceName := "svc", s3Bucket := "b", s3SitePresent := true }

/-- Stack-assembly oracles in which the S3 site export fails. -/
def c4StackEnv : StackEnv :=
  { siteExport := { lambdaEnvErr := some "site export failed" } }

/-- Counterexample to C4 as stated: the S3 site export returns an error, yet
the template-assembly step finishes the whole chain successfully — the
caller discards the export's return value (provision.go, lines 922-931), so
this sub-export failure is silently dropped and never propagated. -/
theorem claim_C4_counterexample_site_export_error_discarded :
    (s3SiteExportRun c4StackEnv.siteExport c4Ctx.cfTemplate).2
        = some "Failed to create S3 site resource: site export failed"
    ∧ (ensureStackRun c4Ctx c4StackEnv).2.1 = none
    ∧ (ensureStackRun c4Ctx c4StackEnv).2.2 = none := by
  refine ⟨by rfl, by rfl, by rfl⟩

lemma applyCFOp_snd_template_invariant (ctx : WorkflowCtx) (env : StackEnv)
    (t1 t2 : CFTemplate) (se : SiteExportEnv) :
    (applyCloudFormationOperationRun { ctx with cfTemplate := t1 }
        { env with siteExport := se }).2
      = (applyCloudFormationOperationRun { ctx with cfTemplate := t2 } env).2 := by
  rw [applyCloudFormationOperationRun, applyCloudFormationOperationRun]
  dsimp only
  cases h1 : (if ctx.templateWriterPresent then env.marshalErr else none) with
  | some e => simp only [h1]
  | none =>
    simp only [h1]
    by_cases h2 : ctx.noop
    · rw [if_pos h2, if_pos h2]
    · rw [if_neg h2, if_neg h2]
      cases h3 : env.convergeErr with
      | some e => simp only [h3]
      | none => simp only [h3]

/-- C4 (amended): every error from a per-function export, the API gateway
export, or the service decorator hook aborts the template-assembly step and
is propagated to the workflow driver (the gateway failure is propagated as
the generic APIGateway export failure message), but the S3 site export's
returned error is discarded by the caller: the step's outcome never depends
on the site-export oracles. -/
theorem claim_C4_subexport_errors_propagate_except_site :
    (∀ (ctx : WorkflowCtx) (env : StackEnv) (e : String),
        hookError ctx.hooks (fun h => h.preMarshall) = none →
        env.lambdaExportErrs.findSome? id = some e →
        (ensureStackRun ctx env).2.1 = none
          ∧ (ensureStackRun ctx env).2.2 = some e)
    ∧ (∀ (ctx : WorkflowCtx) (env : StackEnv) (e0 : String),
        hookError ctx.hooks (fun h => h.preMarshall) = none →
        env.lambdaExportErrs.findSome? id = none →
        ctx.api = true →
        env.apiExportErr = some e0 →
        (ensureStackRun ctx env).2.2
          = some "Failed to export APIGateway template resources")
    ∧ (∀ (ctx : WorkflowCtx) (env : StackEnv) (e : String),
        hookError ctx.hooks (fun h => h.preMarshall) = none →
        env.lambdaExportErrs.findSome? id = none →
        ctx.api = false →
        hookError ctx.hooks (fun h => h.serviceDecorator) = some e →
        (ensureStackRun ctx env).2.2 = some e)
    ∧ (∀ (ctx : WorkflowCtx) (env : StackEnv) (se : SiteExportEnv),
        (ensureStackRun ctx { env with siteExport := se }).2
          = (ensureStackRun ctx env).2) := by
  refine ⟨?_, ?_, ?_, ?_⟩
  · intro ctx env e hpre hfind
    have h : ensureStackRun ctx env = (ctx, none, some e) := by
      rw [ensureStackRun]
      simp only [hpre, hfind]
    rw [h]
    exact ⟨rfl, rfl⟩
  · intro ctx env e0 hpre hfind hapi hexp
    have h : ensureStackRun ctx env
        = (ctx, none, some "Failed to export APIGateway template resources") := by
      rw [ensureStackRun]
      simp only [hpre, hfind, hapi, hexp, if_true]
    rw [h]
  · intro ctx env e hpre hfind hapi hdec
    rw [ensureStackRun]
    simp only [hpre, hfind, hapi, Bool.false_eq_true, if_false]
    by_cases hsp : ctx.s3SitePresent
    · rw [if_pos hsp]
      simp only [hdec]
    · rw [if_neg hsp]
      simp only [hdec]
  · intro ctx env se
    rw [ensureStackRun, ensureStackRun]
    dsimp only
    cases h1 : hookError ctx.hooks (fun h => h.preMarshall) with
    | some e => simp only [h1]
    | none =>
      simp only [h1]
      cases h2 : env.lambdaExportErrs.findSome? id with
      | some e => simp only [h2]
      | none =>
        simp only [h2]
        cases h3 : (if ctx.api = true then
            (match env.apiExportErr with
             | some _ => some "Failed to export APIGateway template resources"
             | none =>
               match env.apiMergeErr with
               | some _ => some "Failed to export APIGateway template resources"
               | none => none)
          else none) with
        | some e => simp only [h3]
        | none =>
          simp only [h3]
          by_cases hsp : ctx.s3SitePresent
          · rw [if_pos hsp, if_pos hsp]
            dsimp only
            cases h4 : hookError ctx.hooks (fun h => h.serviceDecorator) with
            | some e => simp only [h4]
            | none =>
              simp only [h4]
              cases h5 : (if hookPresent ctx.hooks (fun h => h.serviceDecorator)
                  then env.decoratorMergeErr else none) with
              | some e => simp only [h5]
              | none =>
                simp only [h5]
                cases h6 : hookError ctx.hooks (fun h => h.postMarshall) with
                | some e => simp only [h6]
                | none =>
                  simp only [h6]
                  exact applyCFOp_snd_template_invariant ctx env _ _ se
          · rw [if_neg hsp, if_neg hsp]
            cases h4 : hookError ctx.hooks (fun h => h.serviceDecorator) with
            | some e => simp only [h4]
            | none =>
              simp only [h4]
              cases h5 : (if hookPresent ctx.hooks (fun h => h.serviceDecorator)
                  then env.decoratorMergeErr else none) with
              | some e => simp only [h5]
              | none =>
                simp only [h5]
                cases h6 : hookError ctx.hooks (fun h => h.postMarshall) with
                | some e => simp only [h6]
                | none =>
                  simp only [h6]
                  exact applyCFOp_snd_template_invariant ctx env ctx.cfTemplate
                    ctx.cfTemplate se

/-- Witness for the amended C4 at concrete inputs: a failing per-function
export propagates; a failing API gateway export propagates as the generic
message; a failing service decorator propagates. -/
theorem claim_C4_subexport_errors_propagate_except_site_witness :
    ((ensureStackRun { serviceName := "svc" }
        { lambdaExportErrs := [some "lambda export failed"] }).2.1 = none
      ∧ (ensureStackRun { serviceName := "svc" }
          { lambdaExportErrs := [some "lambda export failed"] }).2.2
            = some "lambda export failed")
    ∧ (ensureStackRun { serviceName := "svc", api := true }
        { apiExportErr := some "api boom" }).2.2
          = some "Failed to export APIGateway template resources"
    ∧ (ensureStackRun
        { serviceName := "svc",
          hooks := some { serviceDecorator := some (some "decorator boom") } }
        {}).2.2 = some "decorator boom" :=
  ⟨claim_C4_subexport_errors_propagate_except_site.1 { serviceName := "svc" }
      { lambdaExportErrs := [some "lambda export failed"] }
      "lambda export failed" (by rfl) (by rfl),
   claim_C4_subexport_errors_propagate_except_site.2.1
      { serviceName := "svc", api := true } { apiExportErr := some "api boom" }
      "api boom" (by rfl) (by rfl) (by rfl) (by rfl),
   claim_C4_subexport_errors_propagate_except_site.2.2.1
      { serviceName := "svc",
        hooks := some { serviceDecorator := some (some "decorator boom") } }
      {} "decorator boom" (by rfl) (by rfl) (by rfl) (by rfl)⟩

/-! ## Claim C3 -/

lemma list_get?_some_set_self {α : Type} :
    ∀ (l : List α) (i : Nat) (a : α), l.get? i = some a → l.set i a = l := by
  intro l
  induction l with
  | nil => intro i a h; cases h
  | cons x xs ih =>
    intro i a h
    cases i with
    | zero =>
      simp only [List.get?] at h
      rw [List.set]
      rw [Option.some.injEq] at h
      rw [h]
    | succ n =>
      rw [List.set, ih n a (by simpa using h)]

lemma list_get?_set_self {α : Type} :
    ∀ (l : List α) (i : Nat) (a b : α), l.get? i = some b → (l.set i a).get? i = some a := by
  intro l
  induction l with
  | nil => intro i a b h; cases h
  | cons x xs ih =>
    intro i a b h
    cases i with
    | zero => rfl
    | succ n =>
      rw [List.set]
      simpa using ih n a b (by simpa using h)

lemma addInlineRole_stable (sn fn : String) (d : Nat) (st : VerifyState)
    (rd2 : IAMRoleDefinition) (hget : st.roleStore.get? d = some rd2)
    (hcache : rd2.cachedLogicalName ≠ "")
    (hmap : assocHas st.roleNameMap rd2.cachedLogicalName = true) :
    addInlineRole sn fn d st = st := by
  rw [addInlineRole]
  simp only [hget]
  rw [IAMRoleDefinition.logicalName, if_neg hcache]
  dsimp only
  rw [if_pos hmap, list_get?_some_set_self st.roleStore d rd2 hget]

lemma addCustomInlineRoles_none (sn : String) :
    ∀ (customs : List CustomResourceInfo) (st : VerifyState),
      (∀ c ∈ customs, c.roleDefinition = none) →
      addCustomInlineRoles sn customs st = st := by
  intro customs
  induction customs with
  | nil => intro st _; rfl
  | cons c rest ih =>
    intro st hall
    rw [addCustomInlineRoles, List.foldl_cons, hall c (List.mem_cons_self _ _)]
    dsimp only
    exact ih st (fun c2 hc2 => hall c2 (List.mem_cons_of_mem _ hc2))

lemma verifyState_withNames_self (st : VerifyState) (l : LambdaAWSInfo)
    (hr : l.RoleName = "") (hc : l.customResources = []) :
    ({ st with
        allRoleNames := st.allRoleNames
          ++ (if l.RoleName ≠ "" then [l.RoleName] else [])
          ++ (l.customResources.filter (fun c => c.roleName ≠ "")).map
               (fun c => c.roleName) } : VerifyState) = st := by
  rcases st with ⟨a, b, c1, d1, e1⟩
  rw [hr, hc]
  simp

lemma verifyLambdaStep_stable (sn : String) (d : Nat) (st : VerifyState)
    (rd2 : IAMRoleDefinition) (l : LambdaAWSInfo)
    (hd : l.RoleDefinition = some d) (hr : l.RoleName = "")
    (hc : l.customResources = []) (hcached : l.cachedLambdaFunctionName ≠ "")
    (hget : st.roleStore.get? d = some rd2)
    (hcache : rd2.cachedLogicalName ≠ "")
    (hmap : assocHas st.roleNameMap rd2.cachedLogicalName = true) :
    verifyLambdaStep sn st l = some (st, l) := by
  rw [verifyLambdaStep]
  rw [verifyState_withNames_self st l hr hc]
  dsimp only
  simp only [hd]
  rw [LambdaAWSInfo.lambdaFunctionName, if_pos hcached]
  dsimp only
  rw [addInlineRole_stable sn l.cachedLambdaFunctionName d st rd2 hget hcache hmap,
    hc]
  rfl

lemma verifyPhase1_shared_stable (sn : String) (d : Nat)
    (rd2 : IAMRoleDefinition) :
    ∀ (lambdas : List LambdaAWSInfo) (st : VerifyState),
      (∀ l ∈ lambdas, l.RoleDefinition = some d ∧ l.RoleName = ""
        ∧ l.customResources = [] ∧ l.cachedLambdaFunctionName ≠ "") →
      st.roleStore.get? d = some rd2 →
      rd2.cachedLogicalName ≠ "" →
      assocHas st.roleNameMap rd2.cachedLogicalName = true →
      verifyPhase1 sn st lambdas = some (st, lambdas) := by
  intro lambdas
  induction lambdas with
  | nil => intro st _ _ _ _; rfl
  | cons l rest ih =>
    intro st hall hget hcache hmap
    obtain ⟨hd0, hr0, hc0, hcach0⟩ := hall l (List.mem_cons_self _ _)
    rw [verifyPhase1,
      verifyLambdaStep_stable sn d st rd2 l hd0 hr0 hc0 hcach0 hget hcache hmap]
    dsimp only
    rw [ih st (fun l2 hl2 => hall l2 (List.mem_cons_of_mem _ hl2)) hget hcache hmap]
    rfl

lemma verifyLambdaStep_first (sn : String) (d : Nat) (st : VerifyState)
    (rd : IAMRoleDefinition) (l : LambdaAWSInfo) (ln : String)
    (hln : ln = CloudFormationResourceName "IAMRole" [sn, l.cachedLambdaFunctionName])
    (hd : l.RoleDefinition = some d) (hr : l.RoleName = "")
    (hc : l.customResources = []) (hcached : l.cachedLambdaFunctionName ≠ "")
    (hget : st.roleStore.get? d = some rd) (hcache : rd.cachedLogicalName = "")
    (hmap : assocHas st.roleNameMap ln = false) :
    verifyLambdaStep sn st l
      = some ({ st with
          roleStore := st.roleStore.set d { rd with cachedLogicalName := ln },
          cfTemplate := st.cfTemplate ++ [(ln, .iamRole d)],
          roleNameMap := st.roleNameMap ++ [(ln, .getAtt ln "Arn")] }, l) := by
  subst hln
  rw [verifyLambdaStep]
  rw [verifyState_withNames_self st l hr hc]
  dsimp only
  simp only [hd]
  rw [LambdaAWSInfo.lambdaFunctionName, if_pos hcached]
  dsimp only
  rw [addInlineRole]
  simp only [hget]
  rw [IAMRoleDefinition.logicalName, if_pos hcache]
  dsimp only
  rw [if_neg (by rw [hmap]; exact Bool.false_ne_true)]
  rw [hc]
  rfl

/-- The literal role names a list of lambdas declares, in collection order. -/
def declaredRoleNames (lambdas : List LambdaAWSInfo) : List String :=
  lambdas.flatMap (fun l =>
    (if l.RoleName ≠ "" then [l.RoleName] else [])
    ++ (l.customResources.filter (fun c => c.roleName ≠ "")).map
        (fun c => c.roleName))

lemma verifyPhase1_only_names (sn : String) :
    ∀ (lambdas : List LambdaAWSInfo) (st : VerifyState),
      (∀ l ∈ lambdas, l.RoleDefinition = none
        ∧ ∀ c ∈ l.customResources, c.roleDefinition = none) →
      verifyPhase1 sn st lambdas
        = some ({ st with allRoleNames := st.allRoleNames
            ++ declaredRoleNames lambdas }, lambdas) := by
  intro lambdas
  induction lambdas with
  | nil =>
    intro st _
    rw [verifyPhase1, declaredRoleNames]
    rcases st with ⟨a, b, c1, d1, e1⟩
    simp
  | cons l rest ih =>
    intro st hall
    obtain ⟨hd0, hcn⟩ := hall l (List.mem_cons_self _ _)
    rw [verifyPhase1, verifyLambdaStep]
    simp only [hd0]
    rw [addCustomInlineRoles_none sn l.customResources _ hcn]
    rw [ih _ (fun l2 hl2 => hall l2 (List.mem_cons_of_mem _ hl2))]
    have hflat : declaredRoleNames (l :: rest)
        = ((if l.RoleName ≠ "" then [l.RoleName] else [])
          ++ (l.customResources.filter (fun c => c.roleName ≠ "")).map
              (fun c => c.roleName)) ++ declaredRoleNames rest := by
      rw [declaredRoleNames, declaredRoleNames, List.flatMap_cons]
    rw [hflat]
    simp [List.append_assoc]

lemma contains_append_singleton (seen : List String) (n x : String) :
    (seen ++ [n]).contains x = (n :: seen).contains x := by
  by_cases hm : x ∈ seen ++ [n]
  · have h1 : (seen ++ [n]).contains x = true := List.elem_iff.mpr hm
    have hm2 : x ∈ n :: seen := by
      rcases List.mem_append.mp hm with h | h
      · exact List.mem_cons_of_mem _ h
      · rw [List.mem_singleton.mp h]
        exact List.mem_cons_self _ _
    rw [h1]
    exact (List.elem_iff.mpr hm2).symm
  · have hm2 : x ∉ n :: seen := by
      intro hx
      apply hm
      rcases List.mem_cons.mp hx with rfl | h
      · exact List.mem_append.mpr (Or.inr (List.mem_singleton.mpr rfl))
      · exact List.mem_append.mpr (Or.inl h)
    rw [(contains_eq_false_iff _ _).mpr hm, (contains_eq_false_iff _ _).mpr hm2]

lemma firstWinsFrom_congr :
    ∀ (l seen1 seen2 : List String),
      (∀ x, seen1.contains x = seen2.contains x) →
      firstWinsFrom seen1 l = firstWinsFrom seen2 l := by
  intro l
  induction l with
  | nil => intro seen1 seen2 _; rfl
  | cons n rest ih =>
    intro seen1 seen2 h
    rw [firstWinsFrom, firstWinsFrom, h n]
    by_cases hc : seen2.contains n
    · rw [if_pos hc, if_pos hc]
      exact ih seen1 seen2 h
    · rw [if_neg hc, if_neg hc]
      rw [ih (n :: seen1) (n :: seen2)
        (fun x => by rw [contains_cons, contains_cons, h x])]

lemma verifyPhase2_lookups (getRole : String → Except String String) :
    ∀ (names : List String) (st st2 : VerifyState),
      verifyPhase2 getRole st names = .ok st2 →
      st2.lookups = st.lookups
        ++ firstWinsFrom (st.roleNameMap.map Prod.fst) names := by
  intro names
  induction names with
  | nil =>
    intro st st2 h
    rw [verifyPhase2] at h
    rw [GoRes.ok.injEq] at h
    rw [← h, firstWinsFrom]
    simp
  | cons n rest ih =>
    intro st st2 h
    rw [verifyPhase2] at h
    rw [firstWinsFrom]
    by_cases hc : assocHas st.roleNameMap n
    · rw [if_pos hc] at h
      rw [if_pos (by rw [assocHas] at hc; exact hc)]
      exact ih st st2 h
    · rw [if_neg hc] at h
      rw [if_neg (by rw [assocHas] at hc; exact hc)]
      dsimp only at h
      cases hg : getRole n with
      | error e =>
        rw [hg] at h
        cases h
      | ok arn =>
        rw [hg] at h
        have hih := ih _ st2 h
        dsimp only at hih
        rw [hih]
        have hfc : firstWinsFrom ((st.roleNameMap.map Prod.fst) ++ [n]) rest
            = firstWinsFrom (n :: st.roleNameMap.map Prod.fst) rest :=
          firstWinsFrom_congr rest _ _
            (fun x => contains_append_singleton _ n x)
        have hmap1 : (st.roleNameMap ++ [(n, StringExpr.lit arn)]).map Prod.fst
            = st.roleNameMap.map Prod.fst ++ [n] := by simp
        rw [hmap1, hfc]
        simp

lemma verifyIAMRoles_phase2_of_phase1 (sn : String)
    (getRole : String → Except String String) (store : List IAMRoleDefinition)
    (lambdas : List LambdaAWSInfo) (st1 : VerifyState)
    (lambdas1 : List LambdaAWSInfo) (st : VerifyState)
    (lambdas2 : List LambdaAWSInfo)
    (h1 : verifyPhase1 sn { roleStore := store } lambdas = some (st1, lambdas1))
    (hok : verifyIAMRoles sn getRole store lambdas = .ok (st, lambdas2)) :
    verifyPhase2 getRole st1 st1.allRoleNames = .ok st ∧ lambdas1 = lambdas2 := by
  rw [verifyIAMRoles, h1] at hok
  dsimp only at hok
  cases hp2 : verifyPhase2 getRole st1 st1.allRoleNames with
  | err e => rw [hp2] at hok; cases hok
  | panicked => rw [hp2] at hok; cases hok
  | ok st2 =>
    rw [hp2] at hok
    dsimp only at hok
    rw [GoRes.ok.injEq, Prod.mk.injEq] at hok
    exact ⟨by rw [hok.1], hok.2⟩

lemma verifyPhase1_init_only_names (sn : String) (store : List IAMRoleDefinition)
    (lambdas : List LambdaAWSInfo)
    (hall : ∀ l ∈ lambdas, l.RoleDefinition = none
      ∧ ∀ c ∈ l.customResources, c.roleDefinition = none) :
    verifyPhase1 sn { roleStore := store } lambdas
      = some (VerifyState.mk store [] [] (declaredRoleNames lambdas) [],
              lambdas) := by
  rw [verifyPhase1_only_names sn lambdas { roleStore := store } hall]
  rfl

/-- **C3.** Role resolution in `verifyIAMRoles` deduplicates work.  Scenario
one: for a non-empty list of functions that all share one inline
role-definition pointer `d` (no literal role names, no custom resources,
derived names cached), a successful role-verification run declares exactly one
IAM role resource in the template, has exactly one role-name-map entry for its
logical name, caches that logical name in the shared definition, performs no
external lookups, and every sharer's subsequent `logicalName` call on the
shared definition returns that single name.  Scenario two: for functions with
only literal role names (no inline definitions anywhere), the external
existence lookups performed are exactly the first occurrences of the declared
names — each distinct name is looked up exactly once even if several functions
or custom resources declare it. -/
theorem claim_C3_role_resolution_dedup :
    (∀ (sn : String) (getRole : String → Except String String)
       (store : List IAMRoleDefinition) (lambdas lambdas2 : List LambdaAWSInfo)
       (d : Nat) (rd : IAMRoleDefinition) (st : VerifyState),
       store.get? d = some rd →
       rd.cachedLogicalName = "" →
       lambdas ≠ [] →
       (∀ l ∈ lambdas, l.RoleDefinition = some d ∧ l.RoleName = ""
         ∧ l.customResources = [] ∧ l.cachedLambdaFunctionName ≠ "") →
       verifyIAMRoles sn getRole store lambdas = .ok (st, lambdas2) →
       ∃ ln rd2,
         st.cfTemplate = [(ln, CFBody.iamRole d)]
         ∧ st.roleNameMap = [(ln, StringExpr.getAtt ln "Arn")]
         ∧ st.roleStore.get? d = some rd2
         ∧ rd2.cachedLogicalName = ln
         ∧ st.lookups = []
         ∧ ∀ l2 ∈ lambdas2,
             (rd2.logicalName sn l2.cachedLambdaFunctionName).1 = ln)
    ∧ (∀ (sn : String) (getRole : String → Except String String)
         (store : List IAMRoleDefinition) (lambdas lambdas2 : List LambdaAWSInfo)
         (st : VerifyState),
         (∀ l ∈ lambdas, l.RoleDefinition = none
           ∧ ∀ c ∈ l.customResources, c.roleDefinition = none) →
         verifyIAMRoles sn getRole store lambdas = .ok (st, lambdas2) →
         st.lookups = firstWins (declaredRoleNames lambdas)
         ∧ st.lookups.Nodup
         ∧ ∀ n ∈ declaredRoleNames lambdas, st.lookups.count n = 1) := by
  constructor
  · intro sn getRole store lambdas lambdas2 d rd st hget hfresh hne hall hok
    cases lambdas with
    | nil => exact absurd rfl hne
    | cons l0 rest =>
      obtain ⟨hd0, hr0, hc0, hcach0⟩ := hall l0 (List.mem_cons_self _ _)
      obtain ⟨ln, hln⟩ : ∃ ln, ln = CloudFormationResourceName "IAMRole"
          [sn, l0.cachedLambdaFunctionName] := ⟨_, rfl⟩
      obtain ⟨rd2, hrd2⟩ : ∃ rd2, rd2 = ({ rd with cachedLogicalName := ln } :
          IAMRoleDefinition) := ⟨_, rfl⟩
      obtain ⟨st1, hst1⟩ : ∃ st1, st1 = VerifyState.mk (store.set d rd2)
          [(ln, CFBody.iamRole d)] [(ln, StringExpr.getAtt ln "Arn")] [] [] :=
        ⟨_, rfl⟩
      have hlnne : ln ≠ "" := by
        rw [hln]
        exact cloudFormationResourceName_iamRole_ne_empty _
      have hcache2 : rd2.cachedLogicalName = ln := by rw [hrd2]
      have hget1 : st1.roleStore.get? d = some rd2 := by
        rw [hst1]
        exact list_get?_set_self store d rd2 rd hget
      have hmap1 : assocHas st1.roleNameMap rd2.cachedLogicalName = true := by
        rw [hst1, hcache2]
        simp [assocHas]
      have hstep0 : verifyLambdaStep sn { roleStore := store } l0
          = some (st1, l0) := by
        rw [verifyLambdaStep_first sn d { roleStore := store } rd l0 ln hln hd0
          hr0 hc0 hcach0 hget hfresh rfl, hst1, hrd2]
        rfl
      have hstable : verifyPhase1 sn st1 rest = some (st1, rest) :=
        verifyPhase1_shared_stable sn d rd2 rest st1
          (fun l2 hl2 => hall l2 (List.mem_cons_of_mem _ hl2))
          hget1 (by rw [hcache2]; exact hlnne) hmap1
      have h1 : verifyPhase1 sn { roleStore := store } (l0 :: rest)
          = some (st1, l0 :: rest) := by
        rw [verifyPhase1, hstep0]
        dsimp only
        rw [hstable]
        rfl
      obtain ⟨hp2, _⟩ := verifyIAMRoles_phase2_of_phase1 sn getRole store
        (l0 :: rest) st1 (l0 :: rest) st lambdas2 h1 hok
      have h2 : verifyPhase2 getRole st1 st1.allRoleNames = .ok st1 := by
        rw [hst1]
        rfl
      rw [h2] at hp2
      rw [GoRes.ok.injEq] at hp2
      rw [← hp2]
      refine ⟨ln, rd2, ?_, ?_, hget1, hcache2, ?_, ?_⟩
      · rw [hst1]
      · rw [hst1]
      · rw [hst1]
      · intro l2 _
        rw [IAMRoleDefinition.logicalName,
          if_neg (by rw [hcache2]; exact hlnne)]
        exact hcache2
  · intro sn getRole store lambdas lambdas2 st hall hok
    obtain ⟨hp2, _⟩ := verifyIAMRoles_phase2_of_phase1 sn getRole store lambdas
      (VerifyState.mk store [] [] (declaredRoleNames lambdas) [])
      lambdas st lambdas2 (verifyPhase1_init_only_names sn store lambdas hall)
      hok
    have hlk := verifyPhase2_lookups getRole _ _ _ hp2
    have hlk2 : st.lookups = firstWins (declaredRoleNames lambdas) := by
      rw [hlk]
      rfl
    refine ⟨hlk2, ?_, ?_⟩
    · rw [hlk2, firstWins]
      exact firstWinsFrom_nodup _ _
    · intro n hn
      rw [hlk2, firstWins]
      refine List.count_eq_one_of_mem (firstWinsFrom_nodup _ _) ?_
      rw [mem_firstWinsFrom]
      exact ⟨hn, rfl⟩

/-- Concrete identity oracle for the C3 witness. -/
def c3GetRole (r : String) : Except String String :=
  .ok ("arn:aws:iam::role/" ++ r)

/-- One fresh shared inline role definition. -/
def c3Store : List IAMRoleDefinition := [{}]

/-- Three functions sharing inline role definition `0` by reference. -/
def c3SharedLambdas : List LambdaAWSInfo :=
  [{ RoleDefinition := some 0, cachedLambdaFunctionName := "mainHandler" },
   { RoleDefinition := some 0, cachedLambdaFunctionName := "echoHandler" },
   { RoleDefinition := some 0, cachedLambdaFunctionName := "mainHandler" }]

/-- The verification state the shared-role scenario produces. -/
def c3SharedSt : VerifyState :=
  { roleStore := [{ privileges := [], cachedLogicalName := "IAMRole390297354" }],
    cfTemplate := [("IAMRole390297354", .iamRole 0)],
    roleNameMap := [("IAMRole390297354", .getAtt "IAMRole390297354" "Arn")],
    allRoleNames := [],
    lookups := [] }

/-- Three functions with literal role names, `"roleA"` declared twice. -/
def c3NamedLambdas : List LambdaAWSInfo :=
  [{ RoleName := "roleA" }, { RoleName := "roleB" }, { RoleName := "roleA" }]

/-- The verification state the named-role scenario produces. -/
def c3NamedSt : VerifyState :=
  { roleStore := [],
    cfTemplate := [],
    roleNameMap := [("roleA", .lit "arn:aws:iam::role/roleA"),
                    ("roleB", .lit "arn:aws:iam::role/roleB")],
    allRoleNames := ["roleA", "roleB", "roleA"],
    lookups := ["roleA", "roleB"] }

/-- Witness for C3 at concrete inputs: three sharers of one inline definition
produce one role resource, and the duplicated name `"roleA"` is looked up
once. -/
theorem claim_C3_role_resolution_dedup_witness :
    (∃ ln rd2,
        c3SharedSt.cfTemplate = [(ln, CFBody.iamRole 0)]
        ∧ c3SharedSt.roleNameMap = [(ln, StringExpr.getAtt ln "Arn")]
        ∧ c3SharedSt.roleStore.get? 0 = some rd2
        ∧ rd2.cachedLogicalName = ln
        ∧ c3SharedSt.lookups = []
        ∧ ∀ l2 ∈ c3SharedLambdas,
            (rd2.logicalName "MyService" l2.cachedLambdaFunctionName).1 = ln)
    ∧ c3NamedSt.lookups = firstWins (declaredRoleNames c3NamedLambdas)
    ∧ c3NamedSt.lookups.Nodup
    ∧ ∀ n ∈ declaredRoleNames c3NamedLambdas, c3NamedSt.lookups.count n = 1 :=
  ⟨claim_C3_role_resolution_dedup.1 "MyService" c3GetRole c3Store
      c3SharedLambdas c3SharedLambdas 0 {} c3SharedSt rfl rfl (by decide)
      (by decide) (by decide),
   claim_C3_role_resolution_dedup.2 "MyService" c3GetRole [] c3NamedLambdas
      c3NamedLambdas c3NamedSt (by decide) (by decide)⟩

end Sparta
